import Mathlib

/-!
Shallow embedding of the crossword validation core of the repository
(`src/utils.py` and `src/validators.py`).

Modelling conventions:
* a grid is a `List (List Nat)` of cell values (`0` = black square, `1` = white
  square), indexed with a total lookup that returns `0` out of range — every
  in-range access of the source is in bounds under the rectangularity
  hypotheses the theorems carry;
* Python `float` scores are modelled as exact rationals `ℚ`; the final
  weighted combination in `CompletePuzzleValidator.validate`, where the
  rounding of IEEE-754 binary64 arithmetic is observable, additionally models
  each `*`/`+` as the exact operation followed by round-to-nearest-even
  binary64 rounding (`roundDouble`), and decimal literals as the binary64
  value nearest the literal;
* fallible code (Python raising `IndexError` / `AttributeError`) is modelled
  with `Except String`;
* the mutable `ValidationResult` accumulator is modelled by explicit state
  passing, and Python `for` loops by `List.foldl` / structural recursion.
-/

/-- Total cell lookup: `grid[i][j]`, defaulting to `0` out of range. -/
def cellD (g : List (List Nat)) (i j : Nat) : Nat := (g.getD i []).getD j 0

/-- Row-major list of the indices of an `n × m` grid. -/
def rmIndices (n m : Nat) : List (Nat × Nat) :=
  (List.range n).flatMap fun i => (List.range m).map fun j => (i, j)

/-- `utils.check_rotational_symmetry`: every cell equals its 180-degree
rotation image. -/
def check_rotational_symmetry (grid : List (List Nat)) : Bool :=
  let n := grid.length
  let m := (grid.headD []).length
  (List.range n).all fun i => (List.range m).all fun j =>
    cellD grid i j == cellD grid (n - 1 - i) (m - 1 - j)

/-- `utils.count_black_squares`.  The source computes
`total_squares = len(grid) * len(grid[0])` unconditionally, so a zero-row grid
raises `IndexError` before the `total_squares > 0` division guard can help. -/
def count_black_squares (grid : List (List Nat)) : Except String (Nat × ℚ) :=
  match grid with
  | [] => Except.error ("IndexError: list index out of range")
  | r0 :: _ =>
    let total : Nat := grid.length * r0.length
    let black : Nat := (grid.map (fun row => row.count 0)).sum
    Except.ok (black, if 0 < total then (black : ℚ) / (total : ℚ) else 0)

/-- One visited-matrix update of the flood fill (`visited[i][j] = True`). -/
def setVisited (vis : List (List Bool)) (i j : Nat) : List (List Bool) :=
  vis.set i ((vis.getD i []).set j true)

/-- The `while stack:` loop of `utils.is_connected`.  Coordinates are `Int`
because the source pushes `i-1`/`j-1`, which may be `-1` and is then skipped
by the `i < 0 or j < 0` guard.  The loop pops one entry per iteration and each
visited cell pushes four entries, so at most `1 + 4·n·m` iterations ever run;
the fuel passed by `is_connected` strictly exceeds that bound. -/
def floodFill (grid : List (List Nat)) (n m : Nat) :
    Nat → List (Int × Int) → List (List Bool) → Nat → Nat
  | 0, _, _, count => count
  | _ + 1, [], _, count => count
  | fuel + 1, (i, j) :: stack, visited, count =>
    if decide (i < 0) || decide ((n : Int) ≤ i) || decide (j < 0) ||
        decide ((m : Int) ≤ j) ||
        (visited.getD i.toNat []).getD j.toNat false ||
        cellD grid i.toNat j.toNat == 0 then
      floodFill grid n m fuel stack visited count
    else
      floodFill grid n m fuel
        ((i, j - 1) :: (i, j + 1) :: (i - 1, j) :: (i + 1, j) :: stack)
        (setVisited visited i.toNat j.toNat) (count + 1)

/-- `utils.is_connected`: flood fill from the first white square in row-major
order; connected iff the number of visited cells equals the white count. -/
def is_connected (grid : List (List Nat)) : Bool :=
  let n := grid.length
  if n = 0 then true
  else
    let m := (grid.headD []).length
    let whites := (rmIndices n m).filter fun p => cellD grid p.1 p.2 == 1
    match whites with
    | [] => true
    | (si, sj) :: _ =>
      floodFill grid n m (5 * n * m + 5) [((si : Int), (sj : Int))]
        (List.replicate n (List.replicate m false)) 0 == whites.length

/-- The row-scanning `while` loops shared by `_get_all_word_lengths`,
`_find_unchecked_squares` and `extract_words_from_grid`: maximal runs of
cells equal to `1`, as `(start index, length)` pairs.  The fuel argument makes
the recursion structural; each step either drops at least one element (a run
has length ≥ 1) so the initial fuel `row.length` always suffices. -/
def runsFromAux : Nat → List Nat → Nat → List (Nat × Nat)
  | 0, _, _ => []
  | _ + 1, [], _ => []
  | fuel + 1, c :: cs, j =>
    if c == 1 then
      let len := ((c :: cs).takeWhile (fun x => x == 1)).length
      (j, len) :: runsFromAux fuel ((c :: cs).dropWhile (fun x => x == 1)) (j + len)
    else
      runsFromAux fuel cs (j + 1)

/-- Maximal white runs of a row, starting the position count at `j`. -/
def runsFrom (row : List Nat) (j : Nat) : List (Nat × Nat) :=
  runsFromAux row.length row j

/-- Column `j` of the grid read top to bottom (the order the down-direction
`while` loops read `grid[i][j]`). -/
def colList (grid : List (List Nat)) (n j : Nat) : List Nat :=
  (List.range n).map fun i => cellD grid i j

/-- `starts_across` of `utils.number_grid`:
`(j == 0 or grid[i][j-1] == 0) and (j < m-1 and grid[i][j+1] == 1)`. -/
def starts_across (grid : List (List Nat)) (m i j : Nat) : Bool :=
  (j == 0 || cellD grid i (j - 1) == 0) && (decide (j + 1 < m) && cellD grid i (j + 1) == 1)

/-- `starts_down` of `utils.number_grid`. -/
def starts_down (grid : List (List Nat)) (n i j : Nat) : Bool :=
  (i == 0 || cellD grid (i - 1) j == 0) && (decide (i + 1 < n) && cellD grid (i + 1) j == 1)

/-- A cell receives a number iff it is not black and starts an across or a
down word (the body of the `number_grid` double loop). -/
def starts_cell (grid : List (List Nat)) (n m i j : Nat) : Bool :=
  cellD grid i j != 0 && (starts_across grid m i j || starts_down grid n i j)

/-- Inner loop of `number_grid` over the columns of row `i`, threading the
running `cell_number` counter; returns the produced row and the new counter. -/
def numberRowAux (grid : List (List Nat)) (n m i : Nat) :
    List Nat → Nat → List Nat × Nat
  | [], c => ([], c)
  | j :: js, c =>
    if starts_cell grid n m i j then
      let rest := numberRowAux grid n m i js (c + 1)
      (c :: rest.1, rest.2)
    else
      let rest := numberRowAux grid n m i js c
      (0 :: rest.1, rest.2)

/-- Outer loop of `number_grid` over the rows, threading the counter. -/
def numberRowsAux (grid : List (List Nat)) (n m : Nat) :
    List Nat → Nat → List (List Nat) × Nat
  | [], c => ([], c)
  | i :: is, c =>
    let row := numberRowAux grid n m i (List.range m) c
    let rest := numberRowsAux grid n m is row.2
    (row.1 :: rest.1, rest.2)

/-- `utils.number_grid`: crossword numbering, `0` for unnumbered cells. -/
def number_grid (grid : List (List Nat)) : List (List Nat) :=
  let n := grid.length
  if n = 0 then []
  else (numberRowsAux grid n (grid.headD []).length (List.range n) 1).1

/-- Number of numbered cells strictly before `(i, j)` in row-major order. -/
def countStartsBefore (grid : List (List Nat)) (n m i j : Nat) : Nat :=
  ((List.range i).map fun r => (List.range m).countP fun c => starts_cell grid n m r c).sum
    + (List.range j).countP fun c => starts_cell grid n m i c

/-- A word-position record of `utils.extract_words_from_grid`. -/
structure WordPos where
  number : Nat
  start_pos : Nat × Nat
  length : Nat
  cells : List (Nat × Nat)

deriving instance DecidableEq, Repr for WordPos

/-- The across record built for a run of row `i` starting at column `s`. -/
def mkAcrossWord (ng : List (List Nat)) (i s len : Nat) : WordPos :=
  ⟨cellD ng i s, (i, s), len, (List.range len).map fun k => (i, s + k)⟩

/-- The down record built for a run of column `j` starting at row `s`. -/
def mkDownWord (ng : List (List Nat)) (s j len : Nat) : WordPos :=
  ⟨cellD ng s j, (s, j), len, (List.range len).map fun k => (s + k, j)⟩

/-- `utils.extract_words_from_grid`: `(across, down)` word positions; a run is
kept iff its length is at least 3 and the numbered grid is positive at its
start cell. -/
def extract_words_from_grid (grid ng : List (List Nat)) :
    List WordPos × List WordPos :=
  let n := grid.length
  if n = 0 then ([], [])
  else
    let m := (grid.headD []).length
    let across := (List.range n).flatMap fun i =>
      (runsFrom (grid.getD i []) 0).filterMap fun r =>
        if 3 ≤ r.2 ∧ 0 < cellD ng i r.1 then some (mkAcrossWord ng i r.1 r.2)
        else none
    let down := (List.range m).flatMap fun j =>
      (runsFrom (colList grid n j) 0).filterMap fun r =>
        if 3 ≤ r.2 ∧ 0 < cellD ng r.1 j then some (mkDownWord ng r.1 j r.2)
        else none
    (across, down)

/-- The declarative notion the spec calls a maximal WHITE run: `len` white
cells from index `s`, delimited by the row border or a non-white cell on both
sides (out-of-range lookups read `0`, i.e. non-white). -/
def isMaxRun (row : List Nat) (s len : Nat) : Prop :=
  0 < len ∧ (∀ k, k < len → row.getD (s + k) 0 = 1) ∧
    (s = 0 ∨ row.getD (s - 1) 0 ≠ 1) ∧ row.getD (s + len) 0 ≠ 1

instance (row : List Nat) (s len : Nat) : Decidable (isMaxRun row s len) := by
  unfold isMaxRun
  infer_instance

/-- `GridValidator._get_all_word_lengths`: all across then down run lengths
greater than 1. -/
def get_all_word_lengths (grid : List (List Nat)) : List Nat :=
  let n := grid.length
  if n = 0 then []
  else
    let m := (grid.headD []).length
    ((List.range n).flatMap fun i =>
      ((runsFrom (grid.getD i []) 0).map Prod.snd).filter fun len => decide (1 < len)) ++
    ((List.range m).flatMap fun j =>
      ((runsFrom (colList grid n j) 0).map Prod.snd).filter fun len => decide (1 < len))

/-- Whether cell `(i, j)` lies in an across run of length > 1 (the
`in_across` matrix of `_find_unchecked_squares`). -/
def in_across_run (grid : List (List Nat)) (i j : Nat) : Bool :=
  (runsFrom (grid.getD i []) 0).any fun r =>
    decide (1 < r.2) && decide (r.1 ≤ j) && decide (j < r.1 + r.2)

/-- Whether cell `(i, j)` lies in a down run of length > 1. -/
def in_down_run (grid : List (List Nat)) (n i j : Nat) : Bool :=
  (runsFrom (colList grid n j) 0).any fun r =>
    decide (1 < r.2) && decide (r.1 ≤ i) && decide (i < r.1 + r.2)

/-- `GridValidator._find_unchecked_squares`: white cells in exactly one
direction's multi-cell run, in row-major order. -/
def find_unchecked_squares (grid : List (List Nat)) : List (Nat × Nat) :=
  let n := grid.length
  if n = 0 then []
  else
    let m := (grid.headD []).length
    (rmIndices n m).filter fun p =>
      cellD grid p.1 p.2 == 1 &&
        (in_across_run grid p.1 p.2 != in_down_run grid n p.1 p.2)

/-- `validators.ValidationResult` (the mutable accumulator), with the score as
an exact rational. -/
structure ValidationResult where
  is_valid : Bool
  errors : List String
  warnings : List String
  score : ℚ

deriving instance DecidableEq, Repr for ValidationResult

/-- `ValidationResult.__init__`. -/
def ValidationResult.init (b : Bool) : ValidationResult := ⟨b, [], [], 10⟩

/-- `ValidationResult.add_error`. -/
def ValidationResult.add_error (r : ValidationResult) (message : String)
    (score_penalty : ℚ) : ValidationResult :=
  { r with errors := r.errors ++ [message], is_valid := false,
           score := max 0 (r.score - score_penalty) }

/-- `ValidationResult.add_warning`. -/
def ValidationResult.add_warning (r : ValidationResult) (message : String)
    (score_penalty : ℚ) : ValidationResult :=
  { r with warnings := r.warnings ++ [message],
           score := max 0 (r.score - score_penalty) }

/-- An abstract `add_error` / `add_warning` call, for stating invariants over
arbitrary call sequences. -/
inductive ResultOp where
  | err : String → ℚ → ResultOp
  | warn : String → ℚ → ResultOp

deriving instance DecidableEq, Repr for ResultOp

/-- The penalty argument of the call. -/
def ResultOp.penalty : ResultOp → ℚ
  | .err _ p => p
  | .warn _ p => p

/-- Whether the call is `add_error`. -/
def ResultOp.isErr : ResultOp → Bool
  | .err _ _ => true
  | .warn _ _ => false

/-- Performing one call on the accumulator. -/
def applyOp (r : ValidationResult) : ResultOp → ValidationResult
  | .err m p => r.add_error m p
  | .warn m p => r.add_warning m p

/-- Performing a sequence of calls on a fresh accumulator. -/
def applyOps (ops : List ResultOp) : ValidationResult :=
  ops.foldl applyOp (ValidationResult.init true)

/-- The `"grid"` sub-record of a puzzle; a missing key is `none`. -/
structure GridData where
  layout : Option (List (List Nat))
  numbers : Option (List (List Nat))

deriving instance DecidableEq, Repr for GridData

/-- One answer record `{number, answer, start_pos}`; the source reads these
keys with defaults (`0`, `""`, `[0, 0]`), so they are modelled as plain
fields. -/
structure AnswerInfo where
  number : Nat
  answer : List Char
  start_pos : Nat × Nat

deriving instance DecidableEq, Repr for AnswerInfo

/-- The `"answers"` sub-record. -/
structure AnswersData where
  across : Option (List AnswerInfo)
  down : Option (List AnswerInfo)

deriving instance DecidableEq, Repr for AnswersData

/-- The `"clues"` sub-record: per direction, a mapping from stringified clue
numbers to clue text (modelled as an association list). -/
structure CluesData where
  across : Option (List (String × String))
  down : Option (List (String × String))

deriving instance DecidableEq, Repr for CluesData

/-- A top-level puzzle record.  `Option` marks keys that may be absent; of
`puzzle_id`, `date` and `size` only presence is ever read. -/
structure Puzzle where
  puzzle_id : Option String
  date : Option String
  size : Option String
  grid : Option GridData
  answers : Option AnswersData
  clues : Option CluesData
  theme_answers : List String

deriving instance DecidableEq, Repr for Puzzle

/-- `puzzle_data.get("answers", {})`. -/
def answersOf (p : Puzzle) : AnswersData := p.answers.getD ⟨none, none⟩

/-- `puzzle_data.get("clues", {})`. -/
def cluesOf (p : Puzzle) : CluesData := p.clues.getD ⟨none, none⟩

/-- `puzzle_data.get("grid", {}).get("layout", [])`. -/
def layoutOf (p : Puzzle) : List (List Nat) :=
  (p.grid.getD ⟨none, none⟩).layout.getD []

/-- `utils.validate_puzzle_structure`: `(is_valid, errors)`. -/
def validate_puzzle_structure (puzzle : Puzzle) : Bool × List String :=
  let errors : List String :=
    (if puzzle.puzzle_id.isNone then ["Missing required field: puzzle_id"] else []) ++
    (if puzzle.date.isNone then ["Missing required field: date"] else []) ++
    (if puzzle.size.isNone then ["Missing required field: size"] else []) ++
    (if puzzle.grid.isNone then ["Missing required field: grid"] else []) ++
    (if puzzle.answers.isNone then ["Missing required field: answers"] else []) ++
    (if puzzle.clues.isNone then ["Missing required field: clues"] else []) ++
    (match puzzle.grid with
     | some gd =>
       (if gd.layout.isNone then ["Missing grid.layout"] else []) ++
       (if gd.numbers.isNone then ["Missing grid.numbers"] else [])
     | none => []) ++
    (match puzzle.answers with
     | some ad =>
       (if ad.across.isNone then ["Missing answers.across"] else []) ++
       (if ad.down.isNone then ["Missing answers.down"] else [])
     | none => []) ++
    (match puzzle.clues with
     | some cd =>
       (if cd.across.isNone then ["Missing clues.across"] else []) ++
       (if cd.down.isNone then ["Missing clues.down"] else [])
     | none => [])
  (errors.length == 0, errors)

/-- The recognized `GridValidator` configuration keys (a missing key is
`none`, replaced by its default in `mkGridValidator`). -/
structure GridConfigDict where
  min_word_length : Option Nat
  max_black_square_ratio : Option ℚ
  require_symmetry : Option Bool
  require_connectivity : Option Bool

deriving instance DecidableEq, Repr for GridConfigDict

/-- A constructed `GridValidator` (its four derived attributes). -/
structure GridValidatorS where
  min_word_length : Nat
  max_black_ratio : ℚ
  require_symmetry : Bool
  require_connectivity : Bool

deriving instance DecidableEq, Repr for GridValidatorS

/-- `GridValidator.__init__` (its own `self.config = config or {}` is sound:
all subsequent reads go through `self.config`). -/
def mkGridValidator (config : Option GridConfigDict) : GridValidatorS :=
  let c := config.getD ⟨none, none, none, none⟩
  ⟨c.min_word_length.getD 3, c.max_black_square_ratio.getD 0.20,
   c.require_symmetry.getD true, c.require_connectivity.getD true⟩

/-- Whether the 3x3 square of cells with top-left corner `(i, j)` is all
black. -/
def all3x3black (grid : List (List Nat)) (i j : Nat) : Bool :=
  (List.range 3).all fun di => (List.range 3).all fun dj =>
    cellD grid (i + di) (j + dj) == 0

/-- `GridValidator._check_grid_quality`: one warning per 3x3 all-black block,
penalty 0.3 each. -/
def check_grid_quality (grid : List (List Nat)) (result : ValidationResult) :
    ValidationResult :=
  let n := grid.length
  let m := if 0 < n then (grid.headD []).length else 0
  (rmIndices (n - 2) (m - 2)).foldl
    (fun r p =>
      if all3x3black grid p.1 p.2 then
        r.add_warning ("Found 3x3 block of black squares") 0.3
      else r) result

/-- `GridValidator.validate`.  On a non-empty layout the
`count_black_squares` call cannot be in its error case; the `error` branch
below is dead code kept only to make the match total. -/
def gridValidate (v : GridValidatorS) (grid_data : Puzzle) : ValidationResult :=
  let result := ValidationResult.init true
  let grid_layout := layoutOf grid_data
  if grid_layout.isEmpty then
    result.add_error ("Empty grid layout") 1
  else
    let result :=
      if v.require_symmetry && !check_rotational_symmetry grid_layout then
        result.add_error ("Grid lacks 180-degree rotational symmetry") 2
      else result
    let result :=
      match count_black_squares grid_layout with
      | Except.ok br =>
        if v.max_black_ratio < br.2 then
          result.add_error ("Too many black squares: " ++ toString br.2 ++
            " (max: " ++ toString v.max_black_ratio ++ ")") 1.5
        else result
      | Except.error _ => result
    let result :=
      if v.require_connectivity && !is_connected grid_layout then
        result.add_error ("White squares are not all connected") 3
      else result
    let short_words :=
      (get_all_word_lengths grid_layout).filter fun len =>
        decide (len < v.min_word_length)
    let result :=
      if !short_words.isEmpty then
        result.add_error ("Found " ++ toString short_words.length ++
          " words shorter than " ++ toString v.min_word_length ++ " letters") 1
      else result
    let unchecked := find_unchecked_squares grid_layout
    let result :=
      if !unchecked.isEmpty then
        result.add_warning ("Found " ++ toString unchecked.length ++
          " unchecked squares (letters not in crossings)") 0.5
      else result
    check_grid_quality grid_layout result

/-- `str.upper()` on an answer. -/
def upperWord (w : List Char) : List Char := w.map Char.toUpper

/-- `FillValidator._is_bad_fill`: length ≤ 2, or 4 consecutive vowels, or 5
consecutive consonants (the source checks the counters after updating them on
each character). -/
def is_bad_fill (word : List Char) : Bool :=
  if word.length ≤ 2 then true
  else
    (word.foldl
      (fun (st : Nat × Nat × Bool) ch =>
        let v := if ch ∈ ['A', 'E', 'I', 'O', 'U'] then st.1 + 1 else 0
        let c := if ch ∈ ['A', 'E', 'I', 'O', 'U'] then 0 else st.2.1 + 1
        (v, c, st.2.2 || decide (4 ≤ v) || decide (5 ≤ c)))
      (0, 0, false)).2.2

/-- The letter grid of `FillValidator._verify_crossings`; `none` is Python's
empty string (falsy) cell. -/
abbrev LetterGrid := Nat × Nat → Option Char

/-- All cells start empty. -/
def emptyLetterGrid : LetterGrid := fun _ => none

/-- `letter_grid[i][j] = letter`. -/
def writeCell (g : LetterGrid) (p : Nat × Nat) (c : Char) : LetterGrid :=
  fun q => if q = p then some c else g q

/-- The f-string `"Crossing mismatch at ({i}, {j}): {old} vs {new}"`. -/
def crossMsg (i j : Nat) (old new : Char) : String :=
  "Crossing mismatch at (" ++ toString i ++ ", " ++ toString j ++ "): " ++
    toString old ++ " vs " ++ toString new

/-- The across-answer letter-writing loop of `_verify_crossings`: letters with
`j + k < m` are checked against the current cell and then written; other
letters are skipped. -/
def procAcross (m : Nat) (st : LetterGrid × List String) (a : AnswerInfo) :
    LetterGrid × List String :=
  a.answer.enum.foldl
    (fun st kl =>
      if a.start_pos.2 + kl.1 < m then
        let errs :=
          match st.1 (a.start_pos.1, a.start_pos.2 + kl.1) with
          | some c =>
            if c ≠ kl.2 then
              st.2 ++ [crossMsg a.start_pos.1 (a.start_pos.2 + kl.1) c kl.2]
            else st.2
          | none => st.2
        (writeCell st.1 (a.start_pos.1, a.start_pos.2 + kl.1) kl.2, errs)
      else st) st

/-- The down-answer letter-writing loop of `_verify_crossings` (guard
`i + k < n`). -/
def procDown (n : Nat) (st : LetterGrid × List String) (a : AnswerInfo) :
    LetterGrid × List String :=
  a.answer.enum.foldl
    (fun st kl =>
      if a.start_pos.1 + kl.1 < n then
        let errs :=
          match st.1 (a.start_pos.1 + kl.1, a.start_pos.2) with
          | some c =>
            if c ≠ kl.2 then
              st.2 ++ [crossMsg (a.start_pos.1 + kl.1) a.start_pos.2 c kl.2]
            else st.2
          | none => st.2
        (writeCell st.1 (a.start_pos.1 + kl.1, a.start_pos.2) kl.2, errs)
      else st) st

/-- `FillValidator._verify_crossings`: write all across answers, then all down
answers, collecting mismatch messages. -/
def verify_crossings (puzzle_data : Puzzle) : List String :=
  let grid_layout := layoutOf puzzle_data
  let n := grid_layout.length
  if n = 0 then ["Empty grid"]
  else
    let m := (grid_layout.headD []).length
    let st0 : LetterGrid × List String := (emptyLetterGrid, [])
    let st1 := ((answersOf puzzle_data).across.getD []).foldl (procAcross m) st0
    let st2 := ((answersOf puzzle_data).down.getD []).foldl (procDown n) st1
    st2.2

/-- `', '.join`. -/
def joinComma (l : List String) : String := String.intercalate ", " l

/-- `FillValidator.validate`.  The iteration over `set(answer_words)` has
unspecified order in Python; it is modelled in first-occurrence order. -/
def fillValidate (dictionary : List (List Char)) (puzzle_data : Puzzle) :
    ValidationResult :=
  let result := ValidationResult.init true
  let all_answers :=
    (answersOf puzzle_data).across.getD [] ++ (answersOf puzzle_data).down.getD []
  let answer_words := all_answers.map fun a => upperWord a.answer
  let duplicates :=
    answer_words.dedup.filter fun w => decide (1 < answer_words.count w)
  let result :=
    if !duplicates.isEmpty then
      result.add_error ("Duplicate words found: " ++
        joinComma (duplicates.map fun w => String.mk w)) 2
    else result
  let result := all_answers.foldl
    (fun r a =>
      let answer := upperWord a.answer
      let r :=
        if !dictionary.isEmpty && !dictionary.contains answer then
          r.add_warning ("Word not in dictionary: " ++ String.mk answer) 0.3
        else r
      if is_bad_fill answer then
        r.add_warning ("Low-quality fill: " ++ String.mk answer) 0.5
      else r) result
  (verify_crossings puzzle_data).foldl (fun r e => r.add_error e 2) result

/-- `SolvabilityChecker.validate`: every answer needs a clue keyed by its
stringified number; a non-empty theme with fewer than 2 answers warns. -/
def solvabilityValidate (puzzle_data : Puzzle) : ValidationResult :=
  let result := ValidationResult.init true
  let result := ((answersOf puzzle_data).across.getD []).foldl
    (fun r a =>
      let number := toString a.number
      if (((cluesOf puzzle_data).across.getD []).lookup number).isNone then
        r.add_error ("Missing clue for " ++ number ++ " Across") 1
      else r) result
  let result := ((answersOf puzzle_data).down.getD []).foldl
    (fun r a =>
      let number := toString a.number
      if (((cluesOf puzzle_data).down.getD []).lookup number).isNone then
        r.add_error ("Missing clue for " ++ number ++ " Down") 1
      else r) result
  let theme := puzzle_data.theme_answers
  if !theme.isEmpty then
    if theme.length < 2 then
      result.add_warning ("Theme has fewer than 2 theme answers") 0.5
    else result
  else result

/-- Fuelled floor of log base 2 (structural recursion so proofs can evaluate
it on concrete inputs). -/
def log2fuel : Nat → Nat → Nat
  | 0, _ => 0
  | fuel + 1, x => if x ≤ 1 then 0 else 1 + log2fuel fuel (x / 2)

/-- Floor of log base 2 of a positive natural (`0` for `0`). -/
def nlog2 (x : Nat) : Nat := log2fuel x x

/-- Decides `2 ^ f ≤ a / b` for naturals `a b > 0` and integer `f`. -/
def pow2LE (f : ℤ) (a b : Nat) : Bool :=
  if 0 ≤ f then decide (b * 2 ^ f.toNat ≤ a) else decide (b ≤ a * 2 ^ (-f).toNat)

/-- Floor of log base 2 of the positive rational `a / b`. -/
def floorLog2Q (a b : Nat) : ℤ :=
  let f : ℤ := (nlog2 a : ℤ) - (nlog2 b : ℤ)
  if pow2LE f a b then f else f - 1

/-- Round the positive rational `a / b` to the nearest (ties to even) dyadic
rational with a 53-bit significand: IEEE-754 binary64 rounding in the normal
range, which covers every value the validators compute. -/
def rnePos (a b : Nat) : ℚ :=
  let e : ℤ := 52 - floorLog2Q a b
  let np : Nat × Nat :=
    if 0 ≤ e then (a * 2 ^ e.toNat, b) else (a, b * 2 ^ (-e).toNat)
  let q := np.1 / np.2
  let r := np.1 % np.2
  let msig : Nat :=
    if 2 * r < np.2 then q
    else if np.2 < 2 * r then q + 1
    else if q % 2 = 0 then q else q + 1
  if 0 ≤ e then (msig : ℚ) / ((2 ^ e.toNat : Nat) : ℚ)
  else (msig : ℚ) * ((2 ^ (-e).toNat : Nat) : ℚ)

/-- IEEE-754 binary64 round-to-nearest-even of an exact rational — the value
a Python `float` literal or operation result denotes.  For example
`roundDouble 0.4 = 3602879701896397 / 2 ^ 53 ≠ 2 / 5`. -/
def roundDouble (x : ℚ) : ℚ :=
  if x = 0 then 0
  else if 0 < x then rnePos x.num.toNat x.den
  else -(rnePos (-x).num.toNat (-x).den)

/-- Python `float` addition: exact sum, then binary64 rounding. -/
def fadd (x y : ℚ) : ℚ := roundDouble (x + y)

/-- Python `float` multiplication: exact product, then binary64 rounding. -/
def fmul (x y : ℚ) : ℚ := roundDouble (x * y)

/-- The top-level configuration record passed to `CompletePuzzleValidator`. -/
structure ConfigDict where
  validation : Option GridConfigDict

deriving instance DecidableEq, Repr for ConfigDict

/-- A constructed `CompletePuzzleValidator` (its component validators; the
`FillValidator` is built without a dictionary). -/
structure CompleteValidatorS where
  gv : GridValidatorS
  dictionary : List (List Char)

deriving instance DecidableEq, Repr for CompleteValidatorS

/-- `CompletePuzzleValidator.__init__`.  The source sets
`self.config = config or {}` but then calls `config.get("validation", {})` on
the ORIGINAL argument, which on `None` is an `AttributeError`. -/
def mkCompleteValidator (config : Option ConfigDict) :
    Except String CompleteValidatorS :=
  match config with
  | none => Except.error ("AttributeError: 'NoneType' object has no attribute 'get'")
  | some c => Except.ok ⟨mkGridValidator c.validation, []⟩

/-- `CompletePuzzleValidator.validate`: structural gate, then the three
component validators combined by list concatenation and the 0.4/0.4/0.2
weighted score (a plain assignment: no flooring and no further penalty).  The
score line is Python `float` arithmetic evaluated left to right, so each
product and sum is binary64-rounded and the literals `0.4` / `0.2` denote
their nearest binary64 values. -/
def completeValidate (v : CompleteValidatorS) (puzzle_data : Puzzle) :
    ValidationResult :=
  let s := validate_puzzle_structure puzzle_data
  if s.1 then
    let grid_result := gridValidate v.gv puzzle_data
    let fill_result := fillValidate v.dictionary puzzle_data
    let solvability_result := solvabilityValidate puzzle_data
    { is_valid := grid_result.is_valid && fill_result.is_valid &&
        solvability_result.is_valid,
      errors := grid_result.errors ++ fill_result.errors ++
        solvability_result.errors,
      warnings := grid_result.warnings ++ fill_result.warnings ++
        solvability_result.warnings,
      score := fadd (fadd (fmul grid_result.score (roundDouble 0.4))
        (fmul fill_result.score (roundDouble 0.4)))
        (fmul solvability_result.score (roundDouble 0.2)) }
  else
    s.2.foldl (fun r e => r.add_error e 1) (ValidationResult.init false)

/-- Direction of a placed answer. -/
inductive Dir where
  | across
  | down

deriving instance DecidableEq, Repr for Dir

/-- An answer together with the direction in which `_verify_crossings` writes
it (across answers first, then down answers). -/
structure Placed where
  dir : Dir
  i : Nat
  j : Nat
  text : List Char

deriving instance DecidableEq, Repr for Placed

/-- The cell the `k`-th letter of the answer targets. -/
def Placed.cellOf (q : Placed) (k : Nat) : Nat × Nat :=
  match q.dir with
  | .across => (q.i, q.j + k)
  | .down => (q.i + k, q.j)

/-- The bound check guarding the `k`-th letter (`j + k < m` across,
`i + k < n` down). -/
def Placed.guardOk (n m : Nat) (q : Placed) (k : Nat) : Bool :=
  match q.dir with
  | .across => decide (q.j + k < m)
  | .down => decide (q.i + k < n)

/-- One letter-processing step of `_verify_crossings`, direction-generic. -/
def placedStep (n m : Nat) (q : Placed) (st : LetterGrid × List String)
    (kl : Nat × Char) : LetterGrid × List String :=
  if Placed.guardOk n m q kl.1 then
    let c := Placed.cellOf q kl.1
    let errs :=
      match st.1 c with
      | some ch => if ch ≠ kl.2 then st.2 ++ [crossMsg c.1 c.2 ch kl.2] else st.2
      | none => st.2
    (writeCell st.1 c kl.2, errs)
  else st

/-- Processing one placed answer. -/
def procPlaced (n m : Nat) (st : LetterGrid × List String) (q : Placed) :
    LetterGrid × List String :=
  q.text.enum.foldl (placedStep n m q) st

/-- An across answer as a placed answer. -/
def toPlacedA (a : AnswerInfo) : Placed :=
  ⟨.across, a.start_pos.1, a.start_pos.2, a.answer⟩

/-- A down answer as a placed answer. -/
def toPlacedD (a : AnswerInfo) : Placed :=
  ⟨.down, a.start_pos.1, a.start_pos.2, a.answer⟩

/-- All answers of a puzzle in the order `_verify_crossings` processes them. -/
def placedOf (p : Puzzle) : List Placed :=
  ((answersOf p).across.getD []).map toPlacedA ++
    ((answersOf p).down.getD []).map toPlacedD

/-- The cells an answer actually writes (in-guard letters only). -/
def cellsList (n m : Nat) (q : Placed) : List (Nat × Nat) :=
  (List.range q.text.length).filterMap fun k =>
    if Placed.guardOk n m q k then some (Placed.cellOf q k) else none

/-- The letter offset of the answer targeting cell `c`, if any. -/
def offAt (q : Placed) (c : Nat × Nat) : Option Nat :=
  match q.dir with
  | .across => if c.1 = q.i ∧ q.j ≤ c.2 then some (c.2 - q.j) else none
  | .down => if c.2 = q.j ∧ q.i ≤ c.1 then some (c.1 - q.i) else none

/-- The mismatch message (if any) emitted for letter `k` of the answer when it
is written over base grid `g0`. -/
def stepErr (n m : Nat) (q : Placed) (g0 : LetterGrid) (k : Nat) :
    Option String :=
  if Placed.guardOk n m q k = true ∧ k < q.text.length then
    match g0 (Placed.cellOf q k) with
    | some ch =>
      if ch ≠ q.text.getD k 'A' then
        some (crossMsg (Placed.cellOf q k).1 (Placed.cellOf q k).2 ch
          (q.text.getD k 'A'))
      else none
    | none => none
  else none

/-- Mismatch messages emitted by the first `t` letters. -/
def errsUpTo (n m : Nat) (q : Placed) (g0 : LetterGrid) (t : Nat) :
    List String :=
  (List.range t).filterMap (stepErr n m q g0)

/-- The letter grid after the first `t` letters of the answer are written over
base grid `g0`. -/
def partialGrid (n m : Nat) (q : Placed) (g0 : LetterGrid) (t : Nat) :
    LetterGrid :=
  fun c =>
    match offAt q c with
    | some k =>
      if Placed.guardOk n m q k = true ∧ k < t ∧ k < q.text.length then
        some (q.text.getD k 'A')
      else g0 c
    | none => g0 c

/-- A 10x10 grid whose 14 black squares are the union of the 3x3 blocks at
`(3,3)` and `(4,4)`: 180-degree symmetric, connected, exactly 14% black, all
words of length ≥ 3, no unchecked squares — yet it contains 3x3 all-black
blocks. -/
def gridX : List (List Nat) :=
  [[1,1,1,1,1,1,1,1,1,1],
   [1,1,1,1,1,1,1,1,1,1],
   [1,1,1,1,1,1,1,1,1,1],
   [1,1,1,0,0,0,1,1,1,1],
   [1,1,1,0,0,0,0,1,1,1],
   [1,1,1,0,0,0,0,1,1,1],
   [1,1,1,1,0,0,0,1,1,1],
   [1,1,1,1,1,1,1,1,1,1],
   [1,1,1,1,1,1,1,1,1,1],
   [1,1,1,1,1,1,1,1,1,1]]

/-- A puzzle record carrying `gridX` as its layout. -/
def pX : Puzzle := ⟨none, none, none, some ⟨some gridX, none⟩, none, none, []⟩

/-- A 10x10 grid with four black bars (14 squares, 14% black): symmetric,
connected, all words of length ≥ 3, no unchecked squares, and no 3x3 black
block. -/
def gridW : List (List Nat) :=
  [[1,1,1,1,0,0,0,1,1,1],
   [1,1,1,1,1,1,1,1,1,1],
   [1,1,1,1,1,1,1,1,1,1],
   [0,0,0,0,1,1,1,1,1,1],
   [1,1,1,1,1,1,1,1,1,1],
   [1,1,1,1,1,1,1,1,1,1],
   [1,1,1,1,1,1,0,0,0,0],
   [1,1,1,1,1,1,1,1,1,1],
   [1,1,1,1,1,1,1,1,1,1],
   [1,1,1,0,0,0,1,1,1,1]]

/-- A puzzle record carrying `gridW` as its layout. -/
def pW : Puzzle := ⟨none, none, none, some ⟨some gridW, none⟩, none, none, []⟩

/-- A 3x3 ring grid (white border, black centre), used as a concrete
rectangular 0/1 grid. -/
def gRing : List (List Nat) := [[1,1,1],[1,0,1],[1,1,1]]

/-- A structurally complete puzzle record (every required field present). -/
def pStructOk : Puzzle :=
  ⟨some ("id"), some ("2024-01-01"), some ("3x1"),
   some ⟨some [[1,1,1]], some [[1,0,0]]⟩,
   some ⟨some [], some []⟩, some ⟨some [], some []⟩, []⟩

/-- A puzzle record whose top-level `clues` field is missing. -/
def pNoClues : Puzzle :=
  ⟨some ("id"), some ("2024-01-01"), some ("3x1"),
   some ⟨some [[1,1,1]], some [[1,0,0]]⟩,
   some ⟨some [], some []⟩, none, []⟩

/-- A 2x2 all-white puzzle with one across answer `AB` at `(0,0)` and one
down answer `XY` at `(0,0)`: the two answers overlap exactly at `(0,0)` with
different letters. -/
def pCross : Puzzle :=
  ⟨none, none, none, some ⟨some [[1,1],[1,1]], none⟩,
   some ⟨some [⟨1, ['A','B'], (0,0)⟩], some [⟨1, ['X','Y'], (0,0)⟩]⟩,
   none, []⟩

/-- A 5x5 grid, all white except a black top-left corner: asymmetric (so the
grid validator scores 8), but connected, 4% black, all words of length ≥ 4 and
every white square crossed. -/
def gridC1 : List (List Nat) :=
  [[0,1,1,1,1],
   [1,1,1,1,1],
   [1,1,1,1,1],
   [1,1,1,1,1],
   [1,1,1,1,1]]

/-- A structurally complete puzzle over `gridC1` whose component scores are
exactly (8, 6, 10): the across answer `ABC` at `(1,0)` crosses the down
answers `XYZ` at `(1,0)` and `UVW` at `(1,2)` with mismatching letters (two
crossing errors, fill score 6), and every answer has a clue (solvability
score 10). -/
def pC1x : Puzzle :=
  ⟨some ("id"), some ("2024-01-01"), some ("5x5"),
   some ⟨some gridC1, some [[0]]⟩,
   some ⟨some [⟨1, ['A','B','C'], (1,0)⟩],
     some [⟨1, ['X','Y','Z'], (1,0)⟩, ⟨2, ['U','V','W'], (1,2)⟩]⟩,
   some ⟨some [("1", "c1")], some [("1", "c2"), ("2", "c3")]⟩, []⟩

/-! ## Helper lemmas -/

/- Core `Rat` arithmetic is `@[irreducible]`, which blocks elaboration-time
evaluation of concrete validation runs; restore the default reducibility for
this file so `decide`/`rfl` can evaluate scores. -/
attribute [local semireducible] Rat.mul Rat.sub Rat.add Rat.inv Rat.ofScientific

set_option maxRecDepth 16000

theorem foldl_addError_errors (l : List String) : ∀ r : ValidationResult,
    (l.foldl (fun r e => r.add_error e 1) r).errors = r.errors ++ l := by
  induction l with
  | nil => intro r; simp
  | cons e l ih =>
    intro r
    rw [List.foldl_cons, ih]
    simp [ValidationResult.add_error]

theorem foldl_addError_invalid (l : List String) : ∀ r : ValidationResult,
    r.is_valid = false → (l.foldl (fun r e => r.add_error e 1) r).is_valid = false := by
  induction l with
  | nil => intro r h; exact h
  | cons e l ih =>
    intro r _
    rw [List.foldl_cons]
    exact ih _ rfl

theorem foldl_congr_id {α β : Type _} (f : β → α → β) (l : List α) (s : β)
    (h : ∀ x ∈ l, ∀ s, f s x = s) : l.foldl f s = s := by
  induction l generalizing s with
  | nil => rfl
  | cons x l ih =>
    rw [List.foldl_cons, h x (by simp)]
    exact ih s fun y hy s => h y (by simp [hy]) s

theorem vps_fst (p : Puzzle) :
    (validate_puzzle_structure p).1 = ((validate_puzzle_structure p).2.length == 0) := rfl

theorem applyOp_score (r : ValidationResult) (op : ResultOp) :
    (applyOp r op).score = max 0 (r.score - op.penalty) := by
  cases op <;> rfl

theorem applyOp_isValid (r : ValidationResult) (op : ResultOp) :
    (applyOp r op).is_valid = (r.is_valid && !op.isErr) := by
  cases op <;>
    simp [applyOp, ValidationResult.add_error, ValidationResult.add_warning, ResultOp.isErr]

theorem foldl_applyOp_score_nonneg : ∀ (ops : List ResultOp) (r : ValidationResult),
    0 ≤ r.score → 0 ≤ (ops.foldl applyOp r).score := by
  intro ops
  induction ops with
  | nil => intro r h; exact h
  | cons op ops ih =>
    intro r _
    rw [List.foldl_cons]
    exact ih _ (by rw [applyOp_score]; exact le_max_left 0 _)

theorem foldl_applyOp_score_le : ∀ (ops : List ResultOp) (r : ValidationResult),
    (∀ op ∈ ops, 0 ≤ op.penalty) → 0 ≤ r.score →
    (ops.foldl applyOp r).score ≤ r.score := by
  intro ops
  induction ops with
  | nil => intro r _ _; exact le_refl _
  | cons op ops ih =>
    intro r hpen h0
    rw [List.foldl_cons]
    have hp : 0 ≤ op.penalty := hpen op (by simp)
    have hstep : (applyOp r op).score ≤ r.score := by
      rw [applyOp_score]
      exact max_le h0 (sub_le_self _ hp)
    have h0' : 0 ≤ (applyOp r op).score := by
      rw [applyOp_score]; exact le_max_left 0 _
    exact (ih _ (fun o ho => hpen o (by simp [ho])) h0').trans hstep

theorem foldl_applyOp_isValid : ∀ (ops : List ResultOp) (r : ValidationResult),
    (ops.foldl applyOp r).is_valid = (r.is_valid && !ops.any ResultOp.isErr) := by
  intro ops
  induction ops with
  | nil => intro r; simp
  | cons op ops ih =>
    intro r
    rw [List.foldl_cons, ih, applyOp_isValid]
    simp [Bool.and_assoc]

/-! ## Claim theorems (first group) -/

/-- C7 (code bug): on the empty grid (zero rows) `count_black_squares` does
not return ratio 0 — evaluating `len(grid[0])` raises `IndexError`, despite
the `total_squares > 0` guard showing the empty-safe intent. -/
theorem spot_C7_failing :
    count_black_squares ([] : List (List Nat)) =
      Except.error ("IndexError: list index out of range") := rfl

/-- C9: constructing `CompletePuzzleValidator` with config omitted/`None`
raises `AttributeError`, because `config.get("validation", {})` is called on
the original `None` argument even though `self.config` was normalized. -/
theorem spot_C9 :
    mkCompleteValidator none =
      Except.error ("AttributeError: 'NoneType' object has no attribute 'get'") := rfl

/-- C1 counterexample: the structurally complete puzzle `pC1x` has component
scores exactly (8, 6, 10), yet the composite score of
`CompletePuzzleValidator.validate` is NOT exactly 7.6: the source computes
`8.0*0.4 + 6.0*0.4 + 10.0*0.2` in IEEE-754 binary64 arithmetic, which yields
`8556839292003943 / 2^50 = 7.6000000000000005…`, a value strictly above 7.6
(and above the binary64 value nearest 7.6). -/
theorem spot_C1_counterexample :
    (validate_puzzle_structure pC1x).1 = true ∧
    (gridValidate (mkGridValidator none) pC1x).score = 8 ∧
    (fillValidate [] pC1x).score = 6 ∧
    (solvabilityValidate pC1x).score = 10 ∧
    (completeValidate ⟨mkGridValidator none, []⟩ pC1x).score ≠ 7.6 ∧
    (completeValidate ⟨mkGridValidator none, []⟩ pC1x).score =
      8556839292003943 / 1125899906842624 := by
  refine ⟨by decide, by decide, by decide, by decide, by decide, by decide⟩

/-- C1 (amended): when the structural gate passes,
`CompletePuzzleValidator.validate` returns is_valid = AND of the three
component validities, errors/warnings the concatenation in order grid, fill,
solvability, and score the binary64 evaluation of
`grid·0.4 + fill·0.4 + solvability·0.2` with no re-flooring; component scores
(8, 6, 10) give the binary64 value `8556839292003943 / 2^50`, which is close
to but not exactly 7.6. -/
theorem spot_C1 (v : CompleteValidatorS) (p : Puzzle)
    (h : (validate_puzzle_structure p).1 = true) :
    completeValidate v p =
      { is_valid := (gridValidate v.gv p).is_valid &&
          (fillValidate v.dictionary p).is_valid &&
          (solvabilityValidate p).is_valid,
        errors := (gridValidate v.gv p).errors ++
          (fillValidate v.dictionary p).errors ++
          (solvabilityValidate p).errors,
        warnings := (gridValidate v.gv p).warnings ++
          (fillValidate v.dictionary p).warnings ++
          (solvabilityValidate p).warnings,
        score := fadd (fadd (fmul (gridValidate v.gv p).score (roundDouble 0.4))
          (fmul (fillValidate v.dictionary p).score (roundDouble 0.4)))
          (fmul (solvabilityValidate p).score (roundDouble 0.2)) } ∧
    ((gridValidate v.gv p).score = 8 → (fillValidate v.dictionary p).score = 6 →
      (solvabilityValidate p).score = 10 →
      ((completeValidate v p).score = 8556839292003943 / 1125899906842624 ∧
        (completeValidate v p).score ≠ 7.6)) := by
  have hmain : completeValidate v p =
      { is_valid := (gridValidate v.gv p).is_valid &&
          (fillValidate v.dictionary p).is_valid &&
          (solvabilityValidate p).is_valid,
        errors := (gridValidate v.gv p).errors ++
          (fillValidate v.dictionary p).errors ++
          (solvabilityValidate p).errors,
        warnings := (gridValidate v.gv p).warnings ++
          (fillValidate v.dictionary p).warnings ++
          (solvabilityValidate p).warnings,
        score := fadd (fadd (fmul (gridValidate v.gv p).score (roundDouble 0.4))
          (fmul (fillValidate v.dictionary p).score (roundDouble 0.4)))
          (fmul (solvabilityValidate p).score (roundDouble 0.2)) } := by
    simp only [completeValidate, h, if_true]
  refine ⟨hmain, fun h8 h6 h10 => ?_⟩
  rw [hmain]
  simp only []
  rw [h8, h6, h10]
  exact ⟨by decide, by decide⟩

/-- Witness for C1 at a concrete structurally complete puzzle. -/
theorem spot_C1_witness :
    (validate_puzzle_structure pStructOk).1 = true ∧
    (completeValidate ⟨mkGridValidator none, []⟩ pStructOk =
      { is_valid := (gridValidate (CompleteValidatorS.mk (mkGridValidator none) []).gv pStructOk).is_valid &&
          (fillValidate (CompleteValidatorS.mk (mkGridValidator none) []).dictionary pStructOk).is_valid &&
          (solvabilityValidate pStructOk).is_valid,
        errors := (gridValidate (CompleteValidatorS.mk (mkGridValidator none) []).gv pStructOk).errors ++
          (fillValidate (CompleteValidatorS.mk (mkGridValidator none) []).dictionary pStructOk).errors ++
          (solvabilityValidate pStructOk).errors,
        warnings := (gridValidate (CompleteValidatorS.mk (mkGridValidator none) []).gv pStructOk).warnings ++
          (fillValidate (CompleteValidatorS.mk (mkGridValidator none) []).dictionary pStructOk).warnings ++
          (solvabilityValidate pStructOk).warnings,
        score := fadd (fadd (fmul (gridValidate (CompleteValidatorS.mk (mkGridValidator none) []).gv pStructOk).score (roundDouble 0.4))
          (fmul (fillValidate (CompleteValidatorS.mk (mkGridValidator none) []).dictionary pStructOk).score (roundDouble 0.4)))
          (fmul (solvabilityValidate pStructOk).score (roundDouble 0.2)) } ∧
    ((gridValidate (CompleteValidatorS.mk (mkGridValidator none) []).gv pStructOk).score = 8 →
      (fillValidate (CompleteValidatorS.mk (mkGridValidator none) []).dictionary pStructOk).score = 6 →
      (solvabilityValidate pStructOk).score = 10 →
      ((completeValidate ⟨mkGridValidator none, []⟩ pStructOk).score =
          8556839292003943 / 1125899906842624 ∧
        (completeValidate ⟨mkGridValidator none, []⟩ pStructOk).score ≠ 7.6))) :=
  ⟨by decide, spot_C1 ⟨mkGridValidator none, []⟩ pStructOk (by decide)⟩

/-- C6: a puzzle record missing the top-level `clues` field is rejected by
the structural gate with the error `"Missing required field: clues"`,
`is_valid = false`, and the result is exactly the structural-failure result —
the grid/fill/solvability validators are never consulted. -/
theorem spot_C6 (v : CompleteValidatorS) (p : Puzzle) (h : p.clues = none) :
    (completeValidate v p).is_valid = false ∧
    ("Missing required field: clues") ∈ (completeValidate v p).errors ∧
    completeValidate v p =
      (validate_puzzle_structure p).2.foldl (fun r e => r.add_error e 1)
        (ValidationResult.init false) := by
  have hmem : ("Missing required field: clues") ∈ (validate_puzzle_structure p).2 := by
    simp [validate_puzzle_structure, h]
  have hne : (validate_puzzle_structure p).2 ≠ [] := List.ne_nil_of_mem hmem
  have hfalse : (validate_puzzle_structure p).1 = false := by
    rw [vps_fst]
    simp only [beq_eq_false_iff_ne, ne_eq, List.length_eq_zero]
    exact hne
  have hbranch : completeValidate v p =
      (validate_puzzle_structure p).2.foldl (fun r e => r.add_error e 1)
        (ValidationResult.init false) := by
    simp only [completeValidate, hfalse, Bool.false_eq_true, if_false]
  refine ⟨?_, ?_, hbranch⟩
  · rw [hbranch]
    exact foldl_addError_invalid _ _ rfl
  · rw [hbranch, foldl_addError_errors]
    simpa [ValidationResult.init] using hmem

/-- Witness for C6 at a concrete puzzle with no `clues` field. -/
theorem spot_C6_witness :
    pNoClues.clues = none ∧
    ((completeValidate ⟨mkGridValidator none, []⟩ pNoClues).is_valid = false ∧
    ("Missing required field: clues") ∈
      (completeValidate ⟨mkGridValidator none, []⟩ pNoClues).errors ∧
    completeValidate ⟨mkGridValidator none, []⟩ pNoClues =
      (validate_puzzle_structure pNoClues).2.foldl (fun r e => r.add_error e 1)
        (ValidationResult.init false)) :=
  ⟨rfl, spot_C6 ⟨mkGridValidator none, []⟩ pNoClues rfl⟩

/-- C2: over any sequence of `add_error`/`add_warning` calls with nonnegative
penalties, the score starts at 10, stays in [0, 10], is floored at 0 after
each individual penalty and never increases; `is_valid` is true exactly until
the first `add_error` (warnings never flip it). -/
theorem spot_C2 (ops : List ResultOp)
    (hpen : ∀ op ∈ ops, 0 ≤ op.penalty) :
    (0 ≤ (applyOps ops).score ∧ (applyOps ops).score ≤ 10) ∧
    (∀ pre op post, ops = pre ++ op :: post →
      (applyOps (pre ++ [op])).score =
          max 0 ((applyOps pre).score - op.penalty) ∧
        (applyOps (pre ++ [op])).score ≤ (applyOps pre).score) ∧
    (applyOps ops).is_valid = !ops.any ResultOp.isErr := by
  refine ⟨⟨foldl_applyOp_score_nonneg ops _ (by norm_num [ValidationResult.init]), ?_⟩, ?_, ?_⟩
  · exact foldl_applyOp_score_le ops _ hpen (by norm_num [ValidationResult.init])
  · intro pre op post heq
    have hstep : applyOps (pre ++ [op]) = applyOp (applyOps pre) op := by
      unfold applyOps
      rw [List.foldl_append]
      rfl
    have hp : 0 ≤ op.penalty := hpen op (by rw [heq]; simp)
    have h0 : 0 ≤ (applyOps pre).score :=
      foldl_applyOp_score_nonneg pre _ (by norm_num [ValidationResult.init])
    refine ⟨by rw [hstep, applyOp_score], ?_⟩
    rw [hstep, applyOp_score]
    exact max_le h0 (sub_le_self _ hp)
  · unfold applyOps
    rw [foldl_applyOp_isValid]
    simp [ValidationResult.init]

/-- Witness for C2 at a concrete two-call sequence. -/
theorem spot_C2_witness :
    (∀ op ∈ [ResultOp.err ("e") 1, ResultOp.warn ("w") 2], 0 ≤ op.penalty) ∧
    ((0 ≤ (applyOps [ResultOp.err ("e") 1, ResultOp.warn ("w") 2]).score ∧
        (applyOps [ResultOp.err ("e") 1, ResultOp.warn ("w") 2]).score ≤ 10) ∧
      (∀ pre op post,
        [ResultOp.err ("e") 1, ResultOp.warn ("w") 2] = pre ++ op :: post →
        (applyOps (pre ++ [op])).score =
            max 0 ((applyOps pre).score - op.penalty) ∧
          (applyOps (pre ++ [op])).score ≤ (applyOps pre).score) ∧
      (applyOps [ResultOp.err ("e") 1, ResultOp.warn ("w") 2]).is_valid =
        !(List.any [ResultOp.err ("e") 1, ResultOp.warn ("w") 2] ResultOp.isErr)) :=
  ⟨by decide, spot_C2 _ (by decide)⟩

set_option maxRecDepth 16000

theorem mem_rmIndices {n m : Nat} {p : Nat × Nat} :
    p ∈ rmIndices n m ↔ p.1 < n ∧ p.2 < m := by
  cases p with
  | mk a b => simp [rmIndices, List.mem_flatMap]

theorem count_black_squares_eq (grid : List (List Nat)) (hne : grid ≠ []) :
    count_black_squares grid =
      Except.ok ((grid.map fun row => row.count 0).sum,
        if 0 < grid.length * (grid.headD []).length then
          (((grid.map fun row => row.count 0).sum : Nat) : ℚ) /
            (((grid.length * (grid.headD []).length : Nat)) : ℚ)
        else 0) := by
  cases grid with
  | nil => exact absurd rfl hne
  | cons r0 rest => rfl

/-- C8 (counterexample): a perfectly symmetric, connected grid with black
ratio exactly 0.14, no undersized words and no unchecked squares on which
`GridValidator.validate` (default config) nevertheless does NOT return a
clean `score = 10.0, warnings = []` result: `gridX` contains 3x3 all-black
blocks, each adding a warning and a 0.3 penalty (score 9.4, two warnings). -/
theorem spot_C8_counterexample :
    check_rotational_symmetry (layoutOf pX) = true ∧
    is_connected (layoutOf pX) = true ∧
    count_black_squares (layoutOf pX) = Except.ok (14, 0.14) ∧
    (∀ len ∈ get_all_word_lengths (layoutOf pX), 3 ≤ len) ∧
    find_unchecked_squares (layoutOf pX) = [] ∧
    ¬((gridValidate (mkGridValidator none) pX).is_valid = true ∧
      (gridValidate (mkGridValidator none) pX).score = 10 ∧
      (gridValidate (mkGridValidator none) pX).errors = [] ∧
      (gridValidate (mkGridValidator none) pX).warnings = []) := by
  refine ⟨by decide, by decide, ?_, by decide, by decide, ?_⟩
  · rw [count_black_squares_eq (layoutOf pX) (by decide)]
    have h1 : ((layoutOf pX).map fun row => row.count 0).sum = 14 := by decide
    have h2 : (layoutOf pX).length * ((layoutOf pX).headD []).length = 100 := by decide
    rw [h1, h2]
    norm_num
  · intro h
    have hs := h.2.1
    rw [show (gridValidate (mkGridValidator none) pX).score = 47/5 from rfl] at hs
    norm_num at hs

/-- C8 (amended): with the additional hypothesis that the grid contains no
3x3 all-black block, `GridValidator.validate` with the default configuration
returns the pristine result: is_valid = true, score = 10.0, no errors, no
warnings. -/
theorem spot_C8 (p : Puzzle) (bc : Nat)
    (hsym : check_rotational_symmetry (layoutOf p) = true)
    (hconn : is_connected (layoutOf p) = true)
    (hratio : count_black_squares (layoutOf p) = Except.ok (bc, 0.14))
    (hwords : ∀ len ∈ get_all_word_lengths (layoutOf p), 3 ≤ len)
    (hunch : find_unchecked_squares (layoutOf p) = [])
    (hblocks : ∀ i, i < (layoutOf p).length - 2 →
      ∀ j, j < ((layoutOf p).headD []).length - 2 →
      all3x3black (layoutOf p) i j = false) :
    gridValidate (mkGridValidator none) p = ValidationResult.init true := by
  have hne : layoutOf p ≠ [] := by
    intro h0
    rw [h0] at hratio
    simp [count_black_squares] at hratio
  have hnpos : 0 < (layoutOf p).length := List.length_pos.mpr hne
  have hemp : (layoutOf p).isEmpty = false := by
    cases hL : layoutOf p with
    | nil => exact absurd hL hne
    | cons a l => rfl
  have h02 : ¬((0.20 : ℚ) < 0.14) := by norm_num
  have hfil : (get_all_word_lengths (layoutOf p)).filter
      (fun len => decide (len < 3)) = [] := by
    rw [List.filter_eq_nil_iff]
    intro a ha
    have := hwords a ha
    simp
    omega
  have hquality : ∀ r : ValidationResult, check_grid_quality (layoutOf p) r = r := by
    intro r
    simp only [check_grid_quality, if_pos hnpos]
    apply foldl_congr_id
    intro x hx s
    obtain ⟨h1, h2⟩ := mem_rmIndices.mp hx
    rw [hblocks x.1 h1 x.2 h2]
    simp
  have hmain : gridValidate (mkGridValidator none) p =
      check_grid_quality (layoutOf p) (ValidationResult.init true) := by
    simp only [gridValidate, hemp, Bool.false_eq_true, if_false, hsym, hconn,
      hratio, hunch, hfil, mkGridValidator, Option.getD_none, Bool.not_true,
      Bool.and_false, List.isEmpty_nil, Bool.not_false, if_neg h02]
  rw [hmain, hquality]

/-- Witness for the amended C8 at the concrete clean grid `gridW`. -/
theorem spot_C8_witness :
    (check_rotational_symmetry (layoutOf pW) = true ∧
      is_connected (layoutOf pW) = true ∧
      count_black_squares (layoutOf pW) = Except.ok (14, 0.14) ∧
      (∀ len ∈ get_all_word_lengths (layoutOf pW), 3 ≤ len) ∧
      find_unchecked_squares (layoutOf pW) = [] ∧
      (∀ i, i < (layoutOf pW).length - 2 →
        ∀ j, j < ((layoutOf pW).headD []).length - 2 →
        all3x3black (layoutOf pW) i j = false)) ∧
    gridValidate (mkGridValidator none) pW = ValidationResult.init true := by
  have hr : count_black_squares (layoutOf pW) = Except.ok (14, 0.14) := by
    rw [count_black_squares_eq (layoutOf pW) (by decide)]
    have h1 : ((layoutOf pW).map fun row => row.count 0).sum = 14 := by decide
    have h2 : (layoutOf pW).length * ((layoutOf pW).headD []).length = 100 := by decide
    rw [h1, h2]
    norm_num
  exact ⟨⟨by decide, by decide, hr, by decide, by decide, by decide⟩,
    spot_C8 pW 14 (by decide) (by decide) hr (by decide) (by decide) (by decide)⟩

theorem foldl_enum_guard {β : Type _} (f : β → Nat × Char → β) (l : List Char)
    (t : Nat) (st : β) (hid : ∀ kl : Nat × Char, t ≤ kl.1 → ∀ s, f s kl = s) :
    l.enum.foldl f st = (l.take t).enum.foldl f st := by
  rcases le_or_lt l.length t with h | h
  · rw [List.take_of_length_le h]
  · conv_lhs => rw [← List.take_append_drop t l]
    rw [List.enum_append, List.foldl_append]
    apply foldl_congr_id
    intro x hx s
    obtain ⟨k, ch⟩ := x
    have hmem := List.mem_enumFrom hx
    apply hid
    have hlt : (List.take t l).length = t := by
      rw [List.length_take]
      omega
    simp only []
    omega

/-- C10: letters of an across answer with column `start_col + k ≥ m`, and of
a down answer with row `start_row + k ≥ n`, are silently skipped by
`_verify_crossings`: processing an answer is identical to processing the
answer truncated to the space remaining from its start position — the
out-of-bounds letters are neither written nor reported. -/
theorem spot_C10 (n m : Nat) (st : LetterGrid × List String) (a : AnswerInfo) :
    procAcross m st a =
      procAcross m st ⟨a.number, a.answer.take (m - a.start_pos.2), a.start_pos⟩ ∧
    procDown n st a =
      procDown n st ⟨a.number, a.answer.take (n - a.start_pos.1), a.start_pos⟩ := by
  constructor
  · simp only [procAcross]
    exact foldl_enum_guard _ _ _ _ (fun kl hk s => by
      rw [if_neg (by omega)])
  · simp only [procDown]
    exact foldl_enum_guard _ _ _ _ (fun kl hk s => by
      rw [if_neg (by omega)])


theorem offAt_cellOf (q : Placed) (k : Nat) :
    offAt q (Placed.cellOf q k) = some k := by
  cases hq : q.dir <;> simp [offAt, Placed.cellOf, hq]

theorem offAt_some {q : Placed} {c : Nat × Nat} {k : Nat}
    (h : offAt q c = some k) : Placed.cellOf q k = c := by
  obtain ⟨c1, c2⟩ := c
  cases hq : q.dir <;> simp [offAt, hq] at h <;>
    obtain ⟨⟨h1, h2⟩, h3⟩ := h <;>
    simp [Placed.cellOf, hq, Prod.mk.injEq] <;>
    constructor <;> omega

theorem partialGrid_none {q : Placed} {c : Nat × Nat} (n m : Nat)
    (g0 : LetterGrid) (t : Nat) (hoff : offAt q c = none) :
    partialGrid n m q g0 t c = g0 c := by
  unfold partialGrid
  rw [hoff]

theorem partialGrid_some {q : Placed} {c : Nat × Nat} {k : Nat} (n m : Nat)
    (g0 : LetterGrid) (t : Nat) (hoff : offAt q c = some k) :
    partialGrid n m q g0 t c =
      if Placed.guardOk n m q k = true ∧ k < t ∧ k < q.text.length then
        some (q.text.getD k 'A')
      else g0 c := by
  unfold partialGrid
  rw [hoff]

theorem partialGrid_zero (n m : Nat) (q : Placed) (g0 : LetterGrid) :
    partialGrid n m q g0 0 = g0 := by
  funext c
  rcases hoff : offAt q c with _ | k
  · exact partialGrid_none n m g0 0 hoff
  · rw [partialGrid_some n m g0 0 hoff,
      if_neg fun hc => Nat.not_lt_zero k hc.2.1]

theorem errsUpTo_succ (n m : Nat) (q : Placed) (g0 : LetterGrid) (t : Nat) :
    errsUpTo n m q g0 (t + 1) =
      errsUpTo n m q g0 t ++ (stepErr n m q g0 t).toList := by
  unfold errsUpTo
  rw [List.range_succ, List.filterMap_append]
  rcases h : stepErr n m q g0 t with _ | msg <;> simp [h]

theorem stepErr_ge (n m : Nat) (q : Placed) (g0 : LetterGrid) (t : Nat)
    (h : q.text.length ≤ t) : stepErr n m q g0 t = none := by
  unfold stepErr
  rw [if_neg fun hc => absurd hc.2 (by omega)]

theorem partialGrid_succ_skip (n m : Nat) (q : Placed) (g0 : LetterGrid)
    (t : Nat) (h : ¬(Placed.guardOk n m q t = true ∧ t < q.text.length)) :
    partialGrid n m q g0 (t + 1) = partialGrid n m q g0 t := by
  funext c
  rcases hoff : offAt q c with _ | k
  · rw [partialGrid_none n m g0 (t + 1) hoff, partialGrid_none n m g0 t hoff]
  · rw [partialGrid_some n m g0 (t + 1) hoff, partialGrid_some n m g0 t hoff]
    by_cases hk : k = t
    · subst hk
      rw [if_neg fun hc => h ⟨hc.1, hc.2.2⟩, if_neg fun hc => h ⟨hc.1, hc.2.2⟩]
    · have hiff : (k < t + 1) ↔ (k < t) := by omega
      simp only [hiff]

theorem partialGrid_ge (n m : Nat) (q : Placed) (g0 : LetterGrid) {t : Nat}
    (h : q.text.length ≤ t) :
    partialGrid n m q g0 t = partialGrid n m q g0 q.text.length := by
  induction t, h using Nat.le_induction with
  | base => rfl
  | succ t ht ih =>
    rw [partialGrid_succ_skip n m q g0 t fun hc => absurd hc.2 (by omega), ih]

theorem errsUpTo_ge (n m : Nat) (q : Placed) (g0 : LetterGrid) {t : Nat}
    (h : q.text.length ≤ t) :
    errsUpTo n m q g0 t = errsUpTo n m q g0 q.text.length := by
  induction t, h using Nat.le_induction with
  | base => rfl
  | succ t ht ih =>
    rw [errsUpTo_succ, stepErr_ge n m q g0 t (by omega)]
    simp [ih]

theorem placedStep_partial (n m : Nat) (q : Placed) (g0 : LetterGrid)
    (errs0 : List String) (t : Nat) (ht : t < q.text.length) :
    placedStep n m q (partialGrid n m q g0 t, errs0 ++ errsUpTo n m q g0 t)
      (t, q.text.getD t 'A') =
    (partialGrid n m q g0 (t + 1), errs0 ++ errsUpTo n m q g0 (t + 1)) := by
  by_cases hg : Placed.guardOk n m q t = true
  · have hread : partialGrid n m q g0 t (Placed.cellOf q t) =
        g0 (Placed.cellOf q t) := by
      rw [partialGrid_some n m g0 t (offAt_cellOf q t),
        if_neg fun hc => absurd hc.2.1 (lt_irrefl t)]
    have hwrite : writeCell (partialGrid n m q g0 t) (Placed.cellOf q t)
        (q.text.getD t 'A') = partialGrid n m q g0 (t + 1) := by
      funext c
      by_cases hc : c = Placed.cellOf q t
      · subst hc
        unfold writeCell
        rw [if_pos rfl, partialGrid_some n m g0 (t + 1) (offAt_cellOf q t),
          if_pos ⟨hg, by omega, ht⟩]
      · unfold writeCell
        rw [if_neg hc]
        rcases hoff : offAt q c with _ | k
        · rw [partialGrid_none n m g0 t hoff, partialGrid_none n m g0 (t + 1) hoff]
        · have hk : k ≠ t := fun hkt => hc (by rw [← offAt_some hoff, hkt])
          rw [partialGrid_some n m g0 t hoff, partialGrid_some n m g0 (t + 1) hoff]
          have hiff : (k < t + 1) ↔ (k < t) := by omega
          simp only [hiff]
    have hstepE : stepErr n m q g0 t =
        match g0 (Placed.cellOf q t) with
        | some ch =>
          if ch ≠ q.text.getD t 'A' then
            some (crossMsg (Placed.cellOf q t).1 (Placed.cellOf q t).2 ch
              (q.text.getD t 'A'))
          else none
        | none => none := by
      unfold stepErr
      rw [if_pos ⟨hg, ht⟩]
    simp only [placedStep, hg, if_true]
    rcases hg0 : g0 (Placed.cellOf q t) with _ | ch
    · have hstepE2 : stepErr n m q g0 t = none := by rw [hstepE, hg0]
      rw [hread, hg0, hwrite, errsUpTo_succ, hstepE2]
      simp
    · have hstepE2 : stepErr n m q g0 t =
          if ch ≠ q.text.getD t 'A' then
            some (crossMsg (Placed.cellOf q t).1 (Placed.cellOf q t).2 ch
              (q.text.getD t 'A'))
          else none := by rw [hstepE, hg0]
      by_cases hch : ch ≠ q.text.getD t 'A'
      · rw [hread, hg0, hwrite, errsUpTo_succ, hstepE2]
        have hch2 : ¬(ch = q.text[t]?.getD 'A') := by
          simpa [List.getD_eq_getElem?_getD] using hch
        simp only [List.getD_eq_getElem?_getD, ne_eq, hch2, not_false_eq_true,
          if_true, if_false, ite_not]
        simp [hch2]
      · rw [hread, hg0, hwrite, errsUpTo_succ, hstepE2]
        have hch2 : ch = q.text[t]?.getD 'A' := by
          have := not_ne_iff.mp hch
          simpa [List.getD_eq_getElem?_getD] using this
        simp [hch2]
  · have hskip : partialGrid n m q g0 (t + 1) = partialGrid n m q g0 t :=
      partialGrid_succ_skip n m q g0 t fun hc => hg hc.1
    have hE : stepErr n m q g0 t = none := by
      unfold stepErr
      rw [if_neg fun hc => hg hc.1]
    simp only [placedStep, hg, if_false]
    rw [hskip, errsUpTo_succ, hE]
    simp

theorem placedFold_inv (n m : Nat) (q : Placed) (g0 : LetterGrid)
    (errs0 : List String) :
    ∀ (l : List Char) (t : Nat), q.text.drop t = l →
    (List.enumFrom t l).foldl (placedStep n m q)
      (partialGrid n m q g0 t, errs0 ++ errsUpTo n m q g0 t) =
    (partialGrid n m q g0 q.text.length,
      errs0 ++ errsUpTo n m q g0 q.text.length) := by
  intro l
  induction l with
  | nil =>
    intro t hdrop
    have hle : q.text.length ≤ t := by
      have hlen := congrArg List.length hdrop
      simp [List.length_drop] at hlen
      omega
    rw [partialGrid_ge n m q g0 hle, errsUpTo_ge n m q g0 hle]
    rfl
  | cons x l ih =>
    intro t hdrop
    have hlen := congrArg List.length hdrop
    simp only [List.length_drop, List.length_cons] at hlen
    have ht : t < q.text.length := by omega
    have hx : q.text.getD t 'A' = x := by
      have h0 : (q.text.drop t)[0]? = some x := by rw [hdrop]; simp
      rw [List.getElem?_drop] at h0
      rw [List.getD_eq_getElem?_getD]
      simp at h0
      simp [h0]
    have hdrop2 : q.text.drop (t + 1) = l := by
      have h1 : q.text.drop (t + 1) = (q.text.drop t).drop 1 := by
        rw [List.drop_drop]
      rw [h1, hdrop]
      rfl
    rw [show List.enumFrom t (x :: l) = (t, x) :: List.enumFrom (t + 1) l from rfl]
    rw [List.foldl_cons, ← hx, placedStep_partial n m q g0 errs0 t ht]
    exact ih (t + 1) hdrop2

theorem procPlaced_eq (n m : Nat) (q : Placed) (g0 : LetterGrid)
    (errs0 : List String) :
    procPlaced n m (g0, errs0) q =
      (partialGrid n m q g0 q.text.length,
       errs0 ++ errsUpTo n m q g0 q.text.length) := by
  have h := placedFold_inv n m q g0 errs0 q.text 0 rfl
  rw [partialGrid_zero] at h
  unfold procPlaced
  rw [List.enum_eq_enumFrom]
  simpa [errsUpTo] using h

theorem procAcross_eq_placed (n m : Nat) (st : LetterGrid × List String)
    (a : AnswerInfo) :
    procAcross m st a = procPlaced n m st (toPlacedA a) := by
  unfold procAcross procPlaced
  congr 1
  funext st kl
  by_cases h : a.start_pos.2 + kl.1 < m
  · rw [if_pos h, placedStep, if_pos (by simp [Placed.guardOk, toPlacedA, h])]
    rfl
  · rw [if_neg h, placedStep, if_neg (by simp [Placed.guardOk, toPlacedA, h])]

theorem procDown_eq_placed (n m : Nat) (st : LetterGrid × List String)
    (a : AnswerInfo) :
    procDown n st a = procPlaced n m st (toPlacedD a) := by
  unfold procDown procPlaced
  congr 1
  funext st kl
  by_cases h : a.start_pos.1 + kl.1 < n
  · rw [if_pos h, placedStep, if_pos (by simp [Placed.guardOk, toPlacedD, h])]
    rfl
  · rw [if_neg h, placedStep, if_neg (by simp [Placed.guardOk, toPlacedD, h])]

theorem verify_eq_placed (p : Puzzle) (hne : (layoutOf p).length ≠ 0) :
    verify_crossings p =
      ((placedOf p).foldl
        (procPlaced (layoutOf p).length ((layoutOf p).headD []).length)
        (emptyLetterGrid, [])).2 := by
  unfold verify_crossings placedOf
  rw [if_neg hne]
  rw [List.foldl_append, List.foldl_map, List.foldl_map]
  have hA : (fun (st : LetterGrid × List String) a =>
      procPlaced (layoutOf p).length ((layoutOf p).headD []).length st
        (toPlacedA a)) = procAcross ((layoutOf p).headD []).length := by
    funext st a
    rw [procAcross_eq_placed]
  have hD : (fun (st : LetterGrid × List String) a =>
      procPlaced (layoutOf p).length ((layoutOf p).headD []).length st
        (toPlacedD a)) = procDown (layoutOf p).length := by
    funext st a
    rw [procDown_eq_placed]
  rw [hA, hD]

theorem mem_cellsList {n m : Nat} {q : Placed} {c : Nat × Nat} :
    c ∈ cellsList n m q ↔
      ∃ k, k < q.text.length ∧ Placed.guardOk n m q k = true ∧
        Placed.cellOf q k = c := by
  unfold cellsList
  rw [List.mem_filterMap]
  constructor
  · rintro ⟨k, hk, hsome⟩
    rw [List.mem_range] at hk
    by_cases hg : Placed.guardOk n m q k = true
    · rw [if_pos hg] at hsome
      exact ⟨k, hk, hg, by injection hsome⟩
    · rw [if_neg hg] at hsome
      cases hsome
  · rintro ⟨k, hk, hg, hcell⟩
    exact ⟨k, List.mem_range.mpr hk, by rw [if_pos hg, hcell]⟩

theorem filterMap_range_single {β : Type _} (f : Nat → Option β) (len k0 : Nat)
    (msg : β) (hk : k0 < len) (h0 : f k0 = some msg)
    (hnone : ∀ k, k < len → k ≠ k0 → f k = none) :
    (List.range len).filterMap f = [msg] := by
  induction len with
  | zero => omega
  | succ len ih =>
    rw [List.range_succ, List.filterMap_append]
    by_cases hl : k0 = len
    · subst hl
      have hpre : (List.range k0).filterMap f = [] := by
        rw [List.filterMap_eq_nil_iff]
        intro a ha
        rw [List.mem_range] at ha
        exact hnone a (by omega) (by omega)
      rw [hpre]
      simp [List.filterMap_cons, h0]
    · have hk2 : k0 < len := by omega
      rw [ih hk2 fun k hka hkb => hnone k (by omega) hkb]
      have hflen : f len = none := hnone len (by omega) fun h => hl h.symm
      simp [List.filterMap_cons, hflen]

/-- C5: a puzzle whose two answers overlap at exactly one in-bounds cell with
different letters gets exactly one crossing-mismatch error from
`_verify_crossings`, and that error names the cell's coordinates and the two
conflicting letters. -/
theorem spot_C5 (p : Puzzle) (n m : Nat) (q1 q2 : Placed) (c0 : Nat × Nat)
    (l1 l2 : Char) (k1 k2 : Nat)
    (hn : (layoutOf p).length = n)
    (hm : ((layoutOf p).headD []).length = m)
    (hp : placedOf p = [q1, q2])
    (hc0 : c0.1 < n ∧ c0.2 < m)
    (hg1 : Placed.guardOk n m q1 k1 = true) (hk1 : k1 < q1.text.length)
    (hcell1 : Placed.cellOf q1 k1 = c0) (hl1 : q1.text.getD k1 'A' = l1)
    (hg2 : Placed.guardOk n m q2 k2 = true) (hk2 : k2 < q2.text.length)
    (hcell2 : Placed.cellOf q2 k2 = c0) (hl2 : q2.text.getD k2 'A' = l2)
    (hll : l1 ≠ l2)
    (honce : ∀ c ∈ cellsList n m q1, c ∈ cellsList n m q2 → c = c0) :
    verify_crossings p = [crossMsg c0.1 c0.2 l1 l2] := by
  have hne : (layoutOf p).length ≠ 0 := by omega
  rw [verify_eq_placed p hne, hn, hm, hp]
  rw [show List.foldl (procPlaced n m) (emptyLetterGrid, []) [q1, q2] =
      procPlaced n m (procPlaced n m (emptyLetterGrid, []) q1) q2 from rfl]
  rw [procPlaced_eq n m q1 emptyLetterGrid []]
  have hE1 : errsUpTo n m q1 emptyLetterGrid q1.text.length = [] := by
    unfold errsUpTo
    rw [List.filterMap_eq_nil_iff]
    intro k _
    unfold stepErr
    split
    · rfl
    · rfl
  rw [hE1, procPlaced_eq n m q2 (partialGrid n m q1 emptyLetterGrid
    q1.text.length) ([] ++ [])]
  have hoff1 : offAt q1 c0 = some k1 := by
    rw [← hcell1]
    exact offAt_cellOf q1 k1
  have hG1 : partialGrid n m q1 emptyLetterGrid q1.text.length c0 = some l1 := by
    rw [partialGrid_some n m emptyLetterGrid _ hoff1, if_pos ⟨hg1, hk1, hk1⟩, hl1]
  have hstep2 : stepErr n m q2 (partialGrid n m q1 emptyLetterGrid
      q1.text.length) k2 = some (crossMsg c0.1 c0.2 l1 l2) := by
    unfold stepErr
    rw [if_pos ⟨hg2, hk2⟩, hcell2, hG1, hl2]
    simp [hll]
  have hkey : ∀ k, k < q2.text.length → k ≠ k2 →
      stepErr n m q2 (partialGrid n m q1 emptyLetterGrid q1.text.length) k
        = none := by
    intro k hk hkne
    unfold stepErr
    by_cases hgk : Placed.guardOk n m q2 k = true
    · rw [if_pos ⟨hgk, hk⟩]
      have hcne : Placed.cellOf q2 k ≠ c0 := by
        intro hceq
        apply hkne
        have h1 : offAt q2 c0 = some k := by rw [← hceq]; exact offAt_cellOf q2 k
        have h2 : offAt q2 c0 = some k2 := by rw [← hcell2]; exact offAt_cellOf q2 k2
        rw [h1] at h2
        injection h2
      have hnone : partialGrid n m q1 emptyLetterGrid q1.text.length
          (Placed.cellOf q2 k) = none := by
        rcases hoff : offAt q1 (Placed.cellOf q2 k) with _ | k'
        · rw [partialGrid_none n m emptyLetterGrid _ hoff]
          rfl
        · rw [partialGrid_some n m emptyLetterGrid _ hoff]
          rw [if_neg ?hc]
          · rfl
          case hc =>
            rintro ⟨hg', hk', _⟩
            apply hcne
            apply honce
            · exact mem_cellsList.mpr ⟨k', hk', hg', offAt_some hoff⟩
            · exact mem_cellsList.mpr ⟨k, hk, hgk, rfl⟩
      rw [hnone]
    · rw [if_neg fun hc => hgk hc.1]
  show ([] ++ []) ++ errsUpTo n m q2 (partialGrid n m q1 emptyLetterGrid
      q1.text.length) q2.text.length = [crossMsg c0.1 c0.2 l1 l2]
  unfold errsUpTo
  simp only [List.nil_append]
  exact filterMap_range_single _ _ k2 _ hk2 hstep2 hkey

/-- Witness for C5: in `pCross`, across `AB` and down `XY` overlap exactly at
`(0,0)` with letters `A` vs `X`, and exactly that one mismatch is reported. -/
theorem spot_C5_witness :
    ((layoutOf pCross).length = 2 ∧
      ((layoutOf pCross).headD []).length = 2 ∧
      placedOf pCross = [⟨.across, 0, 0, ['A', 'B']⟩, ⟨.down, 0, 0, ['X', 'Y']⟩] ∧
      ((0, 0) : Nat × Nat).1 < 2 ∧ ((0, 0) : Nat × Nat).2 < 2 ∧
      Placed.guardOk 2 2 ⟨.across, 0, 0, ['A', 'B']⟩ 0 = true ∧
      0 < (Placed.mk .across 0 0 ['A', 'B']).text.length ∧
      Placed.cellOf ⟨.across, 0, 0, ['A', 'B']⟩ 0 = (0, 0) ∧
      (Placed.mk .across 0 0 ['A', 'B']).text.getD 0 'A' = 'A' ∧
      Placed.guardOk 2 2 ⟨.down, 0, 0, ['X', 'Y']⟩ 0 = true ∧
      0 < (Placed.mk .down 0 0 ['X', 'Y']).text.length ∧
      Placed.cellOf ⟨.down, 0, 0, ['X', 'Y']⟩ 0 = (0, 0) ∧
      (Placed.mk .down 0 0 ['X', 'Y']).text.getD 0 'A' = 'X' ∧
      'A' ≠ 'X' ∧
      (∀ c ∈ cellsList 2 2 ⟨.across, 0, 0, ['A', 'B']⟩,
        c ∈ cellsList 2 2 ⟨.down, 0, 0, ['X', 'Y']⟩ → c = (0, 0))) ∧
    verify_crossings pCross = [crossMsg 0 0 'A' 'X'] :=
  ⟨⟨by decide, by decide, by decide, by decide, by decide, by decide, by decide,
    by decide, by decide, by decide, by decide, by decide, by decide, by decide,
    by decide⟩,
   spot_C5 pCross 2 2 ⟨.across, 0, 0, ['A', 'B']⟩ ⟨.down, 0, 0, ['X', 'Y']⟩
     (0, 0) 'A' 'X' 0 0 (by decide) (by decide) (by decide) ⟨by decide, by decide⟩
     (by decide) (by decide) (by decide) (by decide) (by decide) (by decide)
     (by decide) (by decide) (by decide) (by decide)⟩

theorem numberRowAux_length (g : List (List Nat)) (n m i : Nat) :
    ∀ (js : List Nat) (c : Nat),
      (numberRowAux g n m i js c).1.length = js.length := by
  intro js
  induction js with
  | nil => intro c; rfl
  | cons j js ih =>
    intro c
    unfold numberRowAux
    by_cases h : starts_cell g n m i j = true <;> simp [h, ih]

theorem numberRowAux_snd (g : List (List Nat)) (n m i : Nat) :
    ∀ (js : List Nat) (c : Nat),
      (numberRowAux g n m i js c).2 =
        c + js.countP fun j => starts_cell g n m i j := by
  intro js
  induction js with
  | nil => intro c; simp [numberRowAux]
  | cons j js ih =>
    intro c
    unfold numberRowAux
    by_cases h : starts_cell g n m i j = true <;>
      simp [h, ih, List.countP_cons] <;> omega

theorem numberRowAux_getD (g : List (List Nat)) (n m i : Nat) :
    ∀ (js : List Nat) (c p : Nat), p < js.length →
      (numberRowAux g n m i js c).1.getD p 0 =
        if starts_cell g n m i (js.getD p 0) = true then
          c + (js.take p).countP fun j => starts_cell g n m i j
        else 0 := by
  intro js
  induction js with
  | nil => intro c p hp; simp at hp
  | cons j js ih =>
    intro c p hp
    unfold numberRowAux
    by_cases h : starts_cell g n m i j = true
    · cases p with
      | zero => simp [h]
      | succ p =>
        have hih := ih (c + 1) p (by simpa using hp)
        simp only [h, if_true, List.getD_cons_succ, List.take_succ_cons,
          List.countP_cons, if_pos h]
        rw [hih]
        by_cases h2 : starts_cell g n m i (js.getD p 0) = true
        · rw [if_pos h2, if_pos h2]
          omega
        · rw [if_neg h2, if_neg h2]
    · cases p with
      | zero => simp [h]
      | succ p =>
        have hih := ih c p (by simpa using hp)
        simp only [h, Bool.false_eq_true, if_false, List.getD_cons_succ,
          List.take_succ_cons, List.countP_cons, Nat.add_zero]
        rw [hih]

theorem numberRowAux_filter (g : List (List Nat)) (n m i : Nat) :
    ∀ (js : List Nat) (c : Nat), 0 < c →
      (numberRowAux g n m i js c).1.filter (fun v => v != 0) =
        List.range' c (js.countP fun j => starts_cell g n m i j) := by
  intro js
  induction js with
  | nil => intro c _; simp [numberRowAux]
  | cons j js ih =>
    intro c hc
    unfold numberRowAux
    by_cases h : starts_cell g n m i j = true
    · have hc0 : (c != 0) = true := by
        simp
        omega
      simp only [h, if_true, List.filter_cons, hc0, List.countP_cons]
      rw [ih (c + 1) (by omega)]
      simp [h, List.range'_succ]
    · simp only [h, Bool.false_eq_true, if_false, List.filter_cons,
        List.countP_cons, Nat.add_zero]
      rw [ih c hc]
      simp

theorem numberRowsAux_flatten (g : List (List Nat)) (n m : Nat) :
    ∀ (is : List Nat) (c : Nat), 0 < c →
      ((numberRowsAux g n m is c).1.flatten.filter fun v => v != 0) =
        List.range' c ((is.map fun i => (List.range m).countP fun j =>
          starts_cell g n m i j).sum) := by
  intro is
  induction is with
  | nil => intro c _; simp [numberRowsAux]
  | cons i is ih =>
    intro c hc
    unfold numberRowsAux
    simp only [List.flatten_cons, List.filter_append]
    rw [numberRowAux_filter g n m i (List.range m) c hc,
      numberRowAux_snd g n m i (List.range m) c,
      ih _ (by omega)]
    have happ := List.range'_append c
      ((List.range m).countP fun j => starts_cell g n m i j)
      ((is.map fun i => (List.range m).countP fun j =>
        starts_cell g n m i j).sum) 1
    simp only [one_mul] at happ
    rw [happ]
    simp [Nat.add_comm]

theorem numberRowsAux_row (g : List (List Nat)) (n m : Nat) :
    ∀ (is : List Nat) (c p : Nat), 0 < c → p < is.length →
      ∃ c2, 0 < c2 ∧
        (numberRowsAux g n m is c).1.getD p [] =
          (numberRowAux g n m (is.getD p 0) (List.range m) c2).1 := by
  intro is
  induction is with
  | nil => intro c p _ hp; simp at hp
  | cons i is ih =>
    intro c p hc hp
    cases p with
    | zero => exact ⟨c, hc, by unfold numberRowsAux; simp⟩
    | succ p =>
      obtain ⟨c2, hc2, heq⟩ := ih (numberRowAux g n m i (List.range m) c).2 p
        (by rw [numberRowAux_snd]; omega) (by simpa using hp)
      exact ⟨c2, hc2, by unfold numberRowsAux; simpa using heq⟩

theorem starts_cell_iff (g : List (List Nat)) (n m i j : Nat)
    (hcell : cellD g i j = 0 ∨ cellD g i j = 1) :
    (starts_cell g n m i j = true ↔
      (cellD g i j = 1 ∧
        (((j = 0 ∨ cellD g i (j - 1) = 0) ∧ j + 1 < m ∧ cellD g i (j + 1) = 1) ∨
         ((i = 0 ∨ cellD g (i - 1) j = 0) ∧ i + 1 < n ∧
           cellD g (i + 1) j = 1)))) := by
  unfold starts_cell starts_across starts_down
  simp only [Bool.and_eq_true, Bool.or_eq_true, bne_iff_ne, beq_iff_eq,
    decide_eq_true_eq, ne_eq]
  rcases hcell with h | h <;> simp [h]

/-- C3: `number_grid` gives an in-bounds cell a number iff it is white and
starts an across or down run of length ≥ 2 (leftmost/top or preceded by
black, and followed in-bounds by white); all other cells hold 0, and the
nonzero values in row-major order are exactly `1, 2, …, k` — consecutive,
distinct and increasing. -/
theorem spot_C3 (g : List (List Nat)) (n m : Nat)
    (hn : g.length = n) (hm0 : (g.headD []).length = m)
    (hrect : ∀ row ∈ g, row.length = m)
    (h01 : ∀ row ∈ g, ∀ x ∈ row, x = 0 ∨ x = 1) :
    (∀ i j, i < n → j < m →
      (cellD (number_grid g) i j ≠ 0 ↔
        (cellD g i j = 1 ∧
          (((j = 0 ∨ cellD g i (j - 1) = 0) ∧ j + 1 < m ∧ cellD g i (j + 1) = 1) ∨
           ((i = 0 ∨ cellD g (i - 1) j = 0) ∧ i + 1 < n ∧
             cellD g (i + 1) j = 1))))) ∧
    (∃ k, (number_grid g).flatten.filter (fun v => v != 0) =
      List.range' 1 k) := by
  constructor
  · intro i j hi hj
    have hlen0 : g.length ≠ 0 := by omega
    have hng : number_grid g = (numberRowsAux g n m (List.range n) 1).1 := by
      unfold number_grid
      rw [if_neg hlen0, hn, hm0]
    obtain ⟨c2, hc2, hrow⟩ := numberRowsAux_row g n m (List.range n) 1 i
      (by omega) (by simpa using hi)
    have hri : (List.range n).getD i 0 = i := by
      rw [List.getD_eq_getElem (List.range n) 0 (by simpa using hi)]
      exact List.getElem_range i _
    rw [hri] at hrow
    have hrj : (List.range m).getD j 0 = j := by
      rw [List.getD_eq_getElem (List.range m) 0 (by simpa using hj)]
      exact List.getElem_range j _
    have hval : cellD (number_grid g) i j =
        if starts_cell g n m i j = true then
          c2 + ((List.range m).take j).countP fun c => starts_cell g n m i c
        else 0 := by
      unfold cellD
      rw [hng, hrow, numberRowAux_getD g n m i (List.range m) c2 j
        (by simpa using hj), hrj]
    have hrowg : g.getD i [] ∈ g := by
      rw [List.getD_eq_getElem g [] (by omega)]
      exact List.getElem_mem _
    have hcmem : (g.getD i []).getD j 0 ∈ g.getD i [] := by
      rw [List.getD_eq_getElem (g.getD i []) 0 (by rw [hrect _ hrowg]; omega)]
      exact List.getElem_mem _
    have hcell : cellD g i j = 0 ∨ cellD g i j = 1 := h01 _ hrowg _ hcmem
    rw [hval]
    constructor
    · intro hv
      by_cases hs : starts_cell g n m i j = true
      · exact (starts_cell_iff g n m i j hcell).mp hs
      · rw [if_neg hs] at hv
        exact absurd rfl hv
    · intro hclaim
      rw [if_pos ((starts_cell_iff g n m i j hcell).mpr hclaim)]
      omega
  · by_cases h0 : g.length = 0
    · refine ⟨0, ?_⟩
      unfold number_grid
      rw [if_pos h0]
      rfl
    · refine ⟨((List.range g.length).map fun i =>
        (List.range (g.headD []).length).countP fun j =>
          starts_cell g g.length (g.headD []).length i j).sum, ?_⟩
      unfold number_grid
      rw [if_neg h0]
      exact numberRowsAux_flatten g g.length (g.headD []).length
        (List.range g.length) 1 (by omega)

/-- Witness for C3 at the concrete ring grid. -/
theorem spot_C3_witness :
    (gRing.length = 3 ∧ (gRing.headD []).length = 3 ∧
      (∀ row ∈ gRing, row.length = 3) ∧
      (∀ row ∈ gRing, ∀ x ∈ row, x = 0 ∨ x = 1)) ∧
    ((∀ i j, i < 3 → j < 3 →
      (cellD (number_grid gRing) i j ≠ 0 ↔
        (cellD gRing i j = 1 ∧
          (((j = 0 ∨ cellD gRing i (j - 1) = 0) ∧ j + 1 < 3 ∧
             cellD gRing i (j + 1) = 1) ∨
           ((i = 0 ∨ cellD gRing (i - 1) j = 0) ∧ i + 1 < 3 ∧
             cellD gRing (i + 1) j = 1))))) ∧
    (∃ k, (number_grid gRing).flatten.filter (fun v => v != 0) =
      List.range' 1 k)) :=
  ⟨⟨rfl, rfl, by decide, by decide⟩,
   spot_C3 gRing 3 3 rfl rfl (by decide) (by decide)⟩

theorem getD_append_shift (l1 l2 : List Nat) (x : Nat) :
    (l1 ++ l2).getD (l1.length + x) 0 = l2.getD x 0 := by
  rw [List.getD_append_right _ _ _ _ (by omega)]
  congr 1
  omega

theorem takeWhile_getD_one (row : List Nat) (k : Nat)
    (hk : k < (row.takeWhile fun x => x == 1).length) :
    row.getD k 0 = 1 := by
  have h2 : ∀ (l1 l2 : List Nat), k < l1.length →
      (l1 ++ l2).getD k 0 = l1.getD k 0 := fun l1 l2 h =>
    List.getD_append l1 l2 0 k h
  have h3 := h2 (row.takeWhile fun x => x == 1)
    (row.dropWhile fun x => x == 1) hk
  rw [List.takeWhile_append_dropWhile] at h3
  rw [h3]
  have hmem : (row.takeWhile fun x => x == 1).getD k 0 ∈
      row.takeWhile fun x => x == 1 := by
    rw [List.getD_eq_getElem _ _ hk]
    exact List.getElem_mem _
  have := List.mem_takeWhile_imp hmem
  simpa using this

theorem dropWhile_cons_head_not {p : Nat → Bool} :
    ∀ (l : List Nat) (h : Nat) (t : List Nat),
      l.dropWhile p = h :: t → p h = false := by
  intro l
  induction l with
  | nil => intro h t hd; simp [List.dropWhile] at hd
  | cons a l ih =>
    intro h t hd
    rw [List.dropWhile_cons] at hd
    by_cases hpa : p a = true
    · rw [if_pos hpa] at hd
      exact ih h t hd
    · rw [if_neg hpa] at hd
      injection hd with h1 _
      rw [← h1]
      simpa using hpa

theorem row_getD_after_takeWhile (row : List Nat) :
    row.getD (row.takeWhile fun x => x == 1).length 0 ≠ 1 := by
  have h2 : ∀ (l1 l2 : List Nat), (l1 ++ l2).getD l1.length 0 = l2.getD 0 0 := by
    intro l1 l2
    rw [List.getD_append_right _ _ _ _ (le_refl _)]
    simp
  have h3 := h2 (row.takeWhile fun x => x == 1) (row.dropWhile fun x => x == 1)
  rw [List.takeWhile_append_dropWhile] at h3
  rw [h3]
  rcases hd : row.dropWhile (fun x => x == 1) with _ | ⟨h, t⟩
  · simp
  · have hh := dropWhile_cons_head_not row h t hd
    rw [List.getD_cons_zero]
    simpa using hh

theorem isMaxRun_nil (s len : Nat) : ¬ isMaxRun ([] : List Nat) s len := by
  rintro ⟨hpos, hcells, _, _⟩
  have := hcells 0 hpos
  simp at this

theorem isMaxRun_cons (c : Nat) (cs : List Nat) (hc : ¬(c = 1)) (d len : Nat) :
    isMaxRun (c :: cs) (d + 1) len ↔ isMaxRun cs d len := by
  unfold isMaxRun
  constructor
  · rintro ⟨h1, h2, h3, h4⟩
    refine ⟨h1, ?_, ?_, ?_⟩
    · intro k hk
      have := h2 k hk
      rwa [show d + 1 + k = (d + k) + 1 by omega, List.getD_cons_succ] at this
    · rcases d with _ | d
      · left
        rfl
      · right
        rcases h3 with h3 | h3
        · omega
        · rwa [show d + 1 + 1 - 1 = (d + 1 - 1) + 1 by omega,
            List.getD_cons_succ] at h3
    · rwa [show d + 1 + len = (d + len) + 1 by omega, List.getD_cons_succ] at h4
  · rintro ⟨h1, h2, h3, h4⟩
    refine ⟨h1, ?_, ?_, ?_⟩
    · intro k hk
      rw [show d + 1 + k = (d + k) + 1 by omega, List.getD_cons_succ]
      exact h2 k hk
    · right
      rcases d with _ | d
      · simpa using hc
      · rcases h3 with h3 | h3
        · omega
        · rw [show d + 1 + 1 - 1 = (d + 1 - 1) + 1 by omega,
            List.getD_cons_succ]
          exact h3
    · rw [show d + 1 + len = (d + len) + 1 by omega, List.getD_cons_succ]
      exact h4

theorem isMaxRun_append (l1 l2 : List Nat) (d len : Nat) (hd : 0 < d) :
    isMaxRun (l1 ++ l2) (l1.length + d) len ↔ isMaxRun l2 d len := by
  unfold isMaxRun
  have hcell : ∀ x, (l1 ++ l2).getD (l1.length + d + x) 0 = l2.getD (d + x) 0 := by
    intro x
    have := getD_append_shift l1 l2 (d + x)
    rwa [show l1.length + (d + x) = l1.length + d + x by omega] at this
  have hleft : (l1 ++ l2).getD (l1.length + d - 1) 0 = l2.getD (d - 1) 0 := by
    have := getD_append_shift l1 l2 (d - 1)
    rwa [show l1.length + (d - 1) = l1.length + d - 1 by omega] at this
  constructor
  · rintro ⟨h1, h2, h3, h4⟩
    refine ⟨h1, ?_, ?_, ?_⟩
    · intro k hk
      have := h2 k hk
      rwa [hcell k] at this
    · right
      rcases h3 with h3 | h3
      · omega
      · rwa [hleft] at h3
    · rwa [hcell len] at h4
  · rintro ⟨h1, h2, h3, h4⟩
    refine ⟨h1, ?_, ?_, ?_⟩
    · intro k hk
      rw [hcell k]
      exact h2 k hk
    · right
      rw [hleft]
      rcases h3 with h3 | h3
      · omega
      · exact h3
    · rw [hcell len]
      exact h4

theorem runsFromAux_mem : ∀ (fuel : Nat) (row : List Nat) (j0 : Nat),
    row.length ≤ fuel → ∀ (s len : Nat),
    ((s, len) ∈ runsFromAux fuel row j0 ↔ j0 ≤ s ∧ isMaxRun row (s - j0) len) := by
  intro fuel
  induction fuel with
  | zero =>
    intro row j0 hf s len
    have hrow : row = [] := by
      cases row with
      | nil => rfl
      | cons a l => simp at hf
    subst hrow
    simp only [runsFromAux, List.not_mem_nil, false_iff]
    rintro ⟨_, hmr⟩
    exact isMaxRun_nil _ _ hmr
  | succ fuel ih =>
    intro row j0 hf s len
    cases row with
    | nil =>
      simp only [runsFromAux, List.not_mem_nil, false_iff]
      rintro ⟨_, hmr⟩
      exact isMaxRun_nil _ _ hmr
    | cons c cs =>
      have hunf : runsFromAux (fuel + 1) (c :: cs) j0 =
          if (c == 1) = true then
            (j0, ((c :: cs).takeWhile fun x => x == 1).length) ::
              runsFromAux fuel ((c :: cs).dropWhile fun x => x == 1)
                (j0 + ((c :: cs).takeWhile fun x => x == 1).length)
          else runsFromAux fuel cs (j0 + 1) := rfl
      by_cases hc : (c == 1) = true
      · have hc1 : c = 1 := by simpa using hc
        rw [hunf, if_pos hc]
        have hlen0pos : 0 < ((c :: cs).takeWhile fun x => x == 1).length := by
          rw [List.takeWhile_cons, if_pos hc]
          simp
        have hT1 : ∀ k, k < ((c :: cs).takeWhile fun x => x == 1).length →
            (c :: cs).getD k 0 = 1 := fun k hk => takeWhile_getD_one (c :: cs) k hk
        have hT2 : (c :: cs).getD ((c :: cs).takeWhile fun x => x == 1).length 0 ≠ 1 :=
          row_getD_after_takeWhile (c :: cs)
        have hsum : ((c :: cs).takeWhile fun x => x == 1).length +
            ((c :: cs).dropWhile fun x => x == 1).length = cs.length + 1 := by
          have h := congrArg List.length
            (List.takeWhile_append_dropWhile (fun x => x == 1) (c :: cs))
          rw [List.length_append, List.length_cons] at h
          exact h
        have hdroplen : ((c :: cs).dropWhile fun x => x == 1).length ≤ fuel := by
          have hf2 : cs.length + 1 ≤ fuel + 1 := by simpa using hf
          omega
        have hshift : ∀ d len2, 0 < d →
            (isMaxRun (c :: cs) (((c :: cs).takeWhile fun x => x == 1).length + d)
                len2 ↔
              isMaxRun ((c :: cs).dropWhile fun x => x == 1) d len2) := by
          intro d len2 hd
          have h := isMaxRun_append ((c :: cs).takeWhile fun x => x == 1)
            ((c :: cs).dropWhile fun x => x == 1) d len2 hd
          rwa [List.takeWhile_append_dropWhile] at h
        have hdrop0 : ∀ len2, ¬ isMaxRun ((c :: cs).dropWhile fun x => x == 1)
            0 len2 := by
          intro len2
          rintro ⟨hpos, hcells, _, _⟩
          have h0 := hcells 0 hpos
          rcases hdd : (c :: cs).dropWhile (fun x => x == 1) with _ | ⟨h, t⟩
          · rw [hdd] at h0
            simp at h0
          · have hh := dropWhile_cons_head_not (c :: cs) h t hdd
            rw [hdd] at h0
            simp at h0 hh
            exact hh h0
        rw [List.mem_cons, ih _ _ hdroplen s len, Prod.mk.injEq]
        constructor
        · rintro (⟨hs, hl⟩ | ⟨hs, hmr⟩)
          · subst hs
            subst hl
            refine ⟨le_refl _, ?_⟩
            rw [Nat.sub_self]
            refine ⟨hlen0pos, ?_, Or.inl rfl, ?_⟩
            · intro k hk
              rw [Nat.zero_add]
              exact hT1 k hk
            · rw [Nat.zero_add]
              exact hT2
          · rcases Nat.eq_or_lt_of_le hs with heq2 | hlt
            · exfalso
              rw [show s - (j0 + ((c :: cs).takeWhile fun x => x == 1).length)
                  = 0 by omega] at hmr
              exact hdrop0 len hmr
            · refine ⟨by omega, ?_⟩
              rw [show s - j0 = ((c :: cs).takeWhile fun x => x == 1).length +
                (s - j0 - ((c :: cs).takeWhile fun x => x == 1).length) by omega]
              apply (hshift _ len (by omega)).mpr
              rwa [show s - (j0 + ((c :: cs).takeWhile fun x => x == 1).length)
                = s - j0 - ((c :: cs).takeWhile fun x => x == 1).length
                by omega] at hmr
        · rintro ⟨hs, hmr⟩
          rcases Nat.eq_zero_or_pos (s - j0) with hd0 | hdpos
          · left
            have hs0 : s = j0 := by omega
            obtain ⟨hpos, hcells, _, hright⟩ := hmr
            rw [hd0] at hcells hright
            have hlen_le : len ≤ ((c :: cs).takeWhile fun x => x == 1).length := by
              by_contra hlt
              push_neg at hlt
              refine hT2 ?_
              have := hcells _ hlt
              rwa [Nat.zero_add] at this
            have hlen_ge : ((c :: cs).takeWhile fun x => x == 1).length ≤ len := by
              by_contra hlt
              push_neg at hlt
              refine hright ?_
              rw [Nat.zero_add]
              exact hT1 len hlt
            exact ⟨hs0, by omega⟩
          · right
            have hdgt : ((c :: cs).takeWhile fun x => x == 1).length < s - j0 := by
              by_contra hle
              push_neg at hle
              obtain ⟨hpos, hcells, hleft, _⟩ := hmr
              rcases hleft with h | h
              · omega
              · exact h (hT1 (s - j0 - 1) (by omega))
            refine ⟨by omega, ?_⟩
            rw [show s - (j0 + ((c :: cs).takeWhile fun x => x == 1).length)
              = s - j0 - ((c :: cs).takeWhile fun x => x == 1).length by omega]
            apply (hshift _ len (by omega)).mp
            rwa [show ((c :: cs).takeWhile fun x => x == 1).length +
              (s - j0 - ((c :: cs).takeWhile fun x => x == 1).length)
              = s - j0 by omega]
      · have hc1 : ¬(c = 1) := by simpa using hc
        rw [hunf, if_neg hc]
        rw [ih cs (j0 + 1) (by simpa using hf) s len]
        constructor
        · rintro ⟨hs, hmr⟩
          refine ⟨by omega, ?_⟩
          rw [show s - j0 = (s - (j0 + 1)) + 1 by omega]
          exact (isMaxRun_cons c cs hc1 _ _).mpr hmr
        · rintro ⟨hs, hmr⟩
          rcases Nat.eq_or_lt_of_le hs with heq | hlt
          · exfalso
            obtain ⟨hpos, hcells, _, _⟩ := hmr
            have h0 := hcells 0 hpos
            rw [show s - j0 = 0 by omega] at h0
            simp at h0
            exact hc1 h0
          · refine ⟨by omega, ?_⟩
            rw [show s - j0 = (s - (j0 + 1)) + 1 by omega] at hmr
            exact (isMaxRun_cons c cs hc1 _ _).mp hmr

theorem runsFrom_mem (row : List Nat) (s len : Nat) :
    ((s, len) ∈ runsFrom row 0 ↔ isMaxRun row s len) := by
  unfold runsFrom
  rw [runsFromAux_mem row.length row 0 (le_refl _) s len]
  simp

/-- C4: `extract_words_from_grid` records a maximal horizontal white run of
row `i` as an across word position iff its length is ≥ 3 and the numbered
grid is positive at its start cell (symmetrically for columns/down), and
consequently every returned position has length ≥ 3 — even a length-2 run
whose start received a clue number is dropped. -/
theorem spot_C4 (g ng : List (List Nat)) (n m : Nat)
    (hn : g.length = n) (hm0 : (g.headD []).length = m)
    (hrect : ∀ row ∈ g, row.length = m) :
    (∀ w ∈ (extract_words_from_grid g ng).1, 3 ≤ w.length) ∧
    (∀ w ∈ (extract_words_from_grid g ng).2, 3 ≤ w.length) ∧
    (∀ i s len, i < n → isMaxRun (g.getD i []) s len →
      (mkAcrossWord ng i s len ∈ (extract_words_from_grid g ng).1 ↔
        (3 ≤ len ∧ 0 < cellD ng i s))) ∧
    (∀ j s len, j < m → isMaxRun (colList g n j) s len →
      (mkDownWord ng s j len ∈ (extract_words_from_grid g ng).2 ↔
        (3 ≤ len ∧ 0 < cellD ng s j))) := by
  by_cases h0 : g.length = 0
  · have hext : extract_words_from_grid g ng = ([], []) := by
      unfold extract_words_from_grid
      rw [if_pos h0]
    refine ⟨?_, ?_, ?_, ?_⟩
    · rw [hext]
      intro w hw
      simp at hw
    · rw [hext]
      intro w hw
      simp at hw
    · intro i s len hi _
      exact absurd hi (by omega)
    · intro j s len hj hmr
      exfalso
      rw [show n = 0 by omega] at hmr
      exact isMaxRun_nil s len (by simpa [colList] using hmr)
  · have hext : extract_words_from_grid g ng =
        ((List.range n).flatMap fun i =>
          (runsFrom (g.getD i []) 0).filterMap fun r =>
            if 3 ≤ r.2 ∧ 0 < cellD ng i r.1 then
              some (mkAcrossWord ng i r.1 r.2)
            else none,
         (List.range m).flatMap fun j =>
          (runsFrom (colList g n j) 0).filterMap fun r =>
            if 3 ≤ r.2 ∧ 0 < cellD ng r.1 j then
              some (mkDownWord ng r.1 j r.2)
            else none) := by
      unfold extract_words_from_grid
      rw [if_neg h0, hn, hm0]
    refine ⟨?_, ?_, ?_, ?_⟩
    · rw [hext]
      intro w hw
      simp only [List.mem_flatMap, List.mem_filterMap, List.mem_range] at hw
      obtain ⟨i, hi, r, hr, hsome⟩ := hw
      by_cases hcond : 3 ≤ r.2 ∧ 0 < cellD ng i r.1
      · rw [if_pos hcond] at hsome
        injection hsome with hw2
        rw [← hw2]
        exact hcond.1
      · rw [if_neg hcond] at hsome
        cases hsome
    · rw [hext]
      intro w hw
      simp only [List.mem_flatMap, List.mem_filterMap, List.mem_range] at hw
      obtain ⟨j, hj, r, hr, hsome⟩ := hw
      by_cases hcond : 3 ≤ r.2 ∧ 0 < cellD ng r.1 j
      · rw [if_pos hcond] at hsome
        injection hsome with hw2
        rw [← hw2]
        exact hcond.1
      · rw [if_neg hcond] at hsome
        cases hsome
    · intro i s len hi hmr
      rw [hext]
      simp only [List.mem_flatMap, List.mem_filterMap, List.mem_range]
      constructor
      · rintro ⟨i2, hi2, r, hr, hsome⟩
        by_cases hcond : 3 ≤ r.2 ∧ 0 < cellD ng i2 r.1
        · rw [if_pos hcond] at hsome
          injection hsome with heq
          have h1 : i2 = i := congrArg (fun w => w.start_pos.1) heq
          have h2 : r.1 = s := congrArg (fun w => w.start_pos.2) heq
          have h3 : r.2 = len := congrArg (fun w => w.length) heq
          rw [h1, h2, h3] at hcond
          exact hcond
        · rw [if_neg hcond] at hsome
          cases hsome
      · rintro ⟨h3, hpos⟩
        refine ⟨i, by omega, (s, len), ?_, ?_⟩
        · exact (runsFrom_mem (g.getD i []) s len).mpr hmr
        · rw [if_pos ⟨h3, hpos⟩]
    · intro j s len hj hmr
      rw [hext]
      simp only [List.mem_flatMap, List.mem_filterMap, List.mem_range]
      constructor
      · rintro ⟨j2, hj2, r, hr, hsome⟩
        by_cases hcond : 3 ≤ r.2 ∧ 0 < cellD ng r.1 j2
        · rw [if_pos hcond] at hsome
          injection hsome with heq
          have h1 : j2 = j := congrArg (fun w => w.start_pos.2) heq
          have h2 : r.1 = s := congrArg (fun w => w.start_pos.1) heq
          have h3 : r.2 = len := congrArg (fun w => w.length) heq
          rw [h1, h2, h3] at hcond
          exact hcond
        · rw [if_neg hcond] at hsome
          cases hsome
      · rintro ⟨h3, hpos⟩
        refine ⟨j, by omega, (s, len), ?_, ?_⟩
        · exact (runsFrom_mem (colList g n j) s len).mpr hmr
        · rw [if_pos ⟨h3, hpos⟩]

/-- Witness for C4 at the concrete ring grid and its own numbering. -/
theorem spot_C4_witness :
    (gRing.length = 3 ∧ (gRing.headD []).length = 3 ∧
      (∀ row ∈ gRing, row.length = 3)) ∧
    ((∀ w ∈ (extract_words_from_grid gRing (number_grid gRing)).1,
        3 ≤ w.length) ∧
      (∀ w ∈ (extract_words_from_grid gRing (number_grid gRing)).2,
        3 ≤ w.length) ∧
      (∀ i s len, i < 3 → isMaxRun (gRing.getD i []) s len →
        (mkAcrossWord (number_grid gRing) i s len ∈
            (extract_words_from_grid gRing (number_grid gRing)).1 ↔
          (3 ≤ len ∧ 0 < cellD (number_grid gRing) i s))) ∧
      (∀ j s len, j < 3 → isMaxRun (colList gRing 3 j) s len →
        (mkDownWord (number_grid gRing) s j len ∈
            (extract_words_from_grid gRing (number_grid gRing)).2 ↔
          (3 ≤ len ∧ 0 < cellD (number_grid gRing) s j)))) :=
  ⟨⟨rfl, rfl, by decide⟩,
   spot_C4 gRing (number_grid gRing) 3 3 rfl rfl (by decide)⟩
